import Mathlib

/-!
Verification development for the parsedmarc-gui backend core:
database migration/purge, credential encryption, setup wizard state,
certificate selection and settings masking.

Python sources are embedded shallowly: databases become maps from table
names to optional row lists, the `.env` file becomes a list of lines,
SQLAlchemy / filesystem / subprocess collaborators become explicit state
or oracle parameters.  Each definition mirrors one function of the
backend source; deviations (e.g. omitted logging) are noted in the doc
comments.
-/

namespace Migration

/-- `TABLE_ORDER` from `database_migration_service.py`: tables in
foreign-key-safe insertion order. -/
def TABLE_ORDER : List String :=
  ["setup_status", "mailbox_configs", "output_configs", "parse_jobs",
   "monitoring_jobs", "parsed_reports", "activity_logs"]

/-- A database state: a table name maps to `some rows` when the table
exists and to `none` when it does not.  Row contents are abstract: the
migration engine copies rows verbatim and only row multiplicity is
observable through `get_table_counts`. -/
def DB (Row : Type) := String → Option (List Row)

/-- Row count of one table: `SELECT COUNT(*)` when the table exists,
`0` otherwise (mirrors the `else: counts[table_name] = 0` branch). -/
def countOf {Row : Type} (db : DB Row) (t : String) : Nat :=
  match db t with
  | some rows => rows.length
  | none => 0

/-- `DatabaseMigrationService.get_table_counts`: row counts for every
table of `TABLE_ORDER`, missing tables reported as zero. -/
def get_table_counts {Row : Type} (db : DB Row) : List (String × Nat) :=
  TABLE_ORDER.map (fun t => (t, countOf db t))

/-- `Base.metadata.create_all(target_engine)`: create each metadata table
(the seven of `TABLE_ORDER`) when missing; existing tables keep their
rows, tables outside the metadata are untouched. -/
def create_all {Row : Type} (db : DB Row) : DB Row :=
  fun t => if t ∈ TABLE_ORDER then some ((db t).getD []) else db t

/-- `Base.metadata.drop_all(target_engine)`: the cleanup path of
`migrate` drops every metadata table on the target. -/
def drop_all {Row : Type} (db : DB Row) : DB Row :=
  fun t => if t ∈ TABLE_ORDER then none else db t

/-- The per-table copy loop of `DatabaseMigrationService.migrate`
(step 2).  For each table in order: read all source rows (`none` on the
source means the `SELECT` raises, aborting the whole migration); when
the source table is empty the loop records a zero count and `continue`s
WITHOUT touching the target table; otherwise it deletes the target
table's rows and batch-inserts the source rows, whose net effect on the
target table is exactly the source row list. -/
def copy_tables {Row : Type} (src : DB Row) :
    List String → DB Row → Option (DB Row × List (String × Nat))
  | [], tgt => some (tgt, [])
  | t :: ts, tgt =>
    match src t with
    | none => none
    | some rows =>
      if rows.isEmpty then
        match copy_tables src ts tgt with
        | some (tgt2, cs) => some (tgt2, (t, 0) :: cs)
        | none => none
      else
        match copy_tables src ts (fun u => if u = t then some rows else tgt u) with
        | some (tgt2, cs) => some (tgt2, (t, rows.length) :: cs)
        | none => none

/-- Result of `migrate`: the returned report plus the post-call states
of both databases. -/
structure MigrateOutcome (Row : Type) where
  success : Bool
  tables_migrated : Nat
  row_counts : List (String × Nat)
  source : DB Row
  target : DB Row

/-- `DatabaseMigrationService.migrate`: create the schema on the target,
copy tables in `TABLE_ORDER`; on success report every table (all seven
are in the metadata).  On any exception the service drops all metadata
tables on the target (best-effort rollback, modelled as succeeding) and
reports zero tables migrated.  The PostgreSQL sequence reset only runs
`setval` and changes no rows, so it does not appear in this row-level
model; all writes go through the target session, so the reported source
state is the input source state. -/
def migrate {Row : Type} (src tgt : DB Row) : MigrateOutcome Row :=
  let tgt1 := create_all tgt
  match copy_tables src TABLE_ORDER tgt1 with
  | some (tgt2, cs) =>
    { success := true, tables_migrated := cs.length, row_counts := cs,
      source := src, target := tgt2 }
  | none =>
    { success := false, tables_migrated := 0, row_counts := [],
      source := src, target := drop_all tgt1 }

/-- Result of `purge_all_data`. -/
structure PurgeOutcome (Row : Type) where
  success : Bool
  rows_deleted : List (String × Nat)
  db : DB Row

/-- The delete loop of `purge_all_data`: for each table of the given
list (the reversed `TABLE_ORDER`), skip missing tables, otherwise
`DELETE FROM` it, recording the statement's rowcount. -/
def purge_step {Row : Type} : List String → DB Row → DB Row × List (String × Nat)
  | [], db => (db, [])
  | t :: ts, db =>
    match db t with
    | none => purge_step ts db
    | some rows =>
      let step := purge_step ts (fun u => if u = t then some [] else db u)
      (step.1, (t, rows.length) :: step.2)

/-- `DatabaseMigrationService.purge_all_data`: delete all rows from
every known table in reverse foreign-key order; per-table deleted
counts are reported for the tables that exist. -/
def purge_all_data {Row : Type} (db : DB Row) : PurgeOutcome Row :=
  let step := purge_step TABLE_ORDER.reverse db
  { success := true, rows_deleted := step.2, db := step.1 }

/-- Source database for the C1 counterexample: all seven tables exist,
`parse_jobs` holds one row, every other table is empty. -/
def exA : DB Nat := fun t =>
  if t = "parse_jobs" then some [1]
  else if t ∈ TABLE_ORDER then some [] else none

/-- Target database for the C1 counterexample: all seven tables exist,
`activity_logs` holds one stale row. -/
def exB : DB Nat := fun t =>
  if t = "activity_logs" then some [7]
  else if t ∈ TABLE_ORDER then some [] else none

/-- Example database for the C2 witness. -/
def exPurge : DB Nat := fun t =>
  if t = "parse_jobs" then some [1, 2]
  else if t ∈ TABLE_ORDER then some [] else none

end Migration

namespace Crypto

/-- JSON values as handled by `json.dumps` / `json.loads` at the
encryption-service call sites: maps with string keys, lists, strings,
booleans, integers and null.  (Python floats are outside this model;
the settings payloads passed to `encrypt_dict` hold strings, integers
and booleans.) -/
inductive JValue where
  | null : JValue
  | bool (b : Bool) : JValue
  | num (n : Int) : JValue
  | str (s : String) : JValue
  | arr (xs : List JValue) : JValue
  | obj (fields : List (String × JValue)) : JValue

/-- Decimal digit character for `d < 10`. -/
def digitChar (d : Nat) : Char := Char.ofNat (48 + d)

/-- Decimal rendering of a natural number, most significant digit
first; the fuel argument bounds recursion depth and `n` itself is
always enough fuel. -/
def natToDecAux : Nat → Nat → List Char
  | 0, _ => []
  | fuel + 1, n =>
    if n = 0 then [] else natToDecAux fuel (n / 10) ++ [digitChar (n % 10)]

/-- Python `repr` of a non-negative integer. -/
def natToDec (n : Nat) : List Char :=
  if n = 0 then ['0'] else natToDecAux n n

/-- Python `repr` of an arbitrary integer, as emitted by `json.dumps`
for `int` values. -/
def dumpInt (n : Int) : List Char :=
  if n < 0 then '-' :: natToDec n.natAbs else natToDec n.toNat

/-- Lowercase hexadecimal digit character for `d < 16`, as produced by
the `\uXXXX` escapes of `json.dumps(..., ensure_ascii=True)`. -/
def hexDigitChar (d : Nat) : Char :=
  if d < 10 then Char.ofNat (48 + d) else Char.ofNat (87 + d)

/-- Four-digit lowercase hex rendering of `n < 0x10000`. -/
def hex4 (n : Nat) : List Char :=
  [hexDigitChar (n / 4096 % 16), hexDigitChar (n / 256 % 16),
   hexDigitChar (n / 16 % 16), hexDigitChar (n % 16)]

/-- Escaping of one character by `json.dumps` with its default
`ensure_ascii=True`: quote and backslash get a backslash escape, the
named control characters get their short escapes, all other characters
outside the printable ASCII range `0x20..0x7e` are emitted as `\uXXXX`
(with a UTF-16 surrogate pair above `0xffff`). -/
def escapeChar (c : Char) : List Char :=
  let n := c.toNat
  if c = '"' then ['\\', '"']
  else if c = '\\' then ['\\', '\\']
  else if c = '\n' then ['\\', 'n']
  else if c = '\t' then ['\\', 't']
  else if c = '\r' then ['\\', 'r']
  else if n = 8 then ['\\', 'b']
  else if n = 12 then ['\\', 'f']
  else if n < 0x20 then '\\' :: 'u' :: hex4 n
  else if n < 0x7f then [c]
  else if n < 0x10000 then '\\' :: 'u' :: hex4 n
  else
    ('\\' :: 'u' :: hex4 (0xd800 + (n - 0x10000) / 0x400)) ++
      ('\\' :: 'u' :: hex4 (0xdc00 + (n - 0x10000) % 0x400))

/-- `json.dumps` rendering of a string: quote, escaped characters,
quote. -/
def dumpString (s : String) : List Char :=
  '"' :: (s.data.map escapeChar).flatten ++ ['"']

mutual

/-- `json.dumps(value)` with the default separators: arrays use
a comma-space separator, objects additionally a colon-space between key
and value, exactly as CPython emits them with `indent=None`. -/
def dumpJ : JValue → List Char
  | .num n => dumpInt n
  | .str s => dumpString s
  | .arr xs => '[' :: dumpItems xs ++ [']']
  | .obj fs => '\x7b' :: dumpFields fs ++ ['\x7d']
  | .bool false => ['f', 'a', 'l', 's', 'e']
  | .bool true => ['t', 'r', 'u', 'e']
  | .null => ['n', 'u', 'l', 'l']

/-- Comma-space separated array elements. -/
def dumpItems : List JValue → List Char
  | [] => []
  | [x] => dumpJ x
  | x :: y :: xs => dumpJ x ++ ',' :: ' ' :: dumpItems (y :: xs)

/-- Comma-space separated `"key": value` object members. -/
def dumpFields : List (String × JValue) → List Char
  | [] => []
  | [(k, v)] => dumpString k ++ ':' :: ' ' :: dumpJ v
  | (k, v) :: f :: fs =>
    dumpString k ++ ':' :: ' ' :: dumpJ v ++ ',' :: ' ' :: dumpFields (f :: fs)

end

/-- Hex digit value accepted by the `\uXXXX` escape of `json.loads`
(upper or lower case). -/
def hexVal (c : Char) : Nat :=
  if 97 ≤ c.toNat then c.toNat - 87
  else if 65 ≤ c.toNat then c.toNat - 55
  else c.toNat - 48

/-- Hex digit test of the `json.loads` escape decoder. -/
def isHexDig (c : Char) : Bool :=
  (48 ≤ c.toNat && c.toNat ≤ 57) || (97 ≤ c.toNat && c.toNat ≤ 102) ||
    (65 ≤ c.toNat && c.toNat ≤ 70)

/-- Parse exactly four hex digits. -/
def parseHex4 : List Char → Option (Nat × List Char)
  | a :: b :: c :: d :: rest =>
    if isHexDig a && isHexDig b && isHexDig c && isHexDig d then
      some (hexVal a * 4096 + hexVal b * 256 + hexVal c * 16 + hexVal d, rest)
    else none
  | _ => none

/-- The single-character escapes of JSON strings. -/
def escCharOf (e : Char) : Option Char :=
  if e = '"' then some '"'
  else if e = '\\' then some '\\'
  else if e = '/' then some '/'
  else if e = 'n' then some '\n'
  else if e = 't' then some '\t'
  else if e = 'r' then some '\r'
  else if e = 'b' then some (Char.ofNat 8)
  else if e = 'f' then some (Char.ofNat 12)
  else none

/-- String-body scanner of the `json.loads` model: consumes characters
until the closing quote, decoding escapes (including UTF-16 surrogate
pairs) and rejecting raw control characters (the default `strict=True`)
and lone surrogate escapes. -/
def parseStringBody : Nat → List Char → Option (List Char × List Char)
  | 0, _ => none
  | _ + 1, [] => none
  | fuel + 1, c :: cs =>
    if c = '"' then some ([], cs)
    else if c = '\\' then
      match cs with
      | [] => none
      | e :: cs2 =>
        if e = 'u' then
          match parseHex4 cs2 with
          | none => none
          | some (n, cs3) =>
            if 0xd800 ≤ n && n < 0xdc00 then
              match cs3 with
              | b1 :: b2 :: cs4 =>
                if b1 = '\\' && b2 = 'u' then
                  match parseHex4 cs4 with
                  | some (m, cs5) =>
                    if 0xdc00 ≤ m && m < 0xe000 then
                      (parseStringBody fuel cs5).map (fun p =>
                        (Char.ofNat (0x10000 + (n - 0xd800) * 0x400 + (m - 0xdc00)) :: p.1, p.2))
                    else none
                  | none => none
                else none
              | _ => none
            else if 0xdc00 ≤ n && n < 0xe000 then none
            else (parseStringBody fuel cs3).map (fun p => (Char.ofNat n :: p.1, p.2))
        else
          match escCharOf e with
          | some c2 => (parseStringBody fuel cs2).map (fun p => (c2 :: p.1, p.2))
          | none => none
    else if c.toNat < 0x20 then none
    else (parseStringBody fuel cs).map (fun p => (c :: p.1, p.2))

/-- Decimal digit test of the number scanner. -/
def isDig (c : Char) : Bool := 48 ≤ c.toNat && c.toNat ≤ 57

/-- Maximal run of decimal digits at the head of the input. -/
def takeDigits : List Char → List Char × List Char
  | [] => ([], [])
  | c :: cs =>
    if isDig c then
      let p := takeDigits cs
      (c :: p.1, p.2)
    else ([], c :: cs)

/-- Numeric value of a decimal digit run. -/
def decToNat (ds : List Char) : Nat :=
  ds.foldl (fun a c => a * 10 + (c.toNat - 48)) 0

/-- Drop the spaces `json.dumps` puts after separators. -/
def skipSpaces (cs : List Char) : List Char := cs.dropWhile (· = ' ')

/-- The input does not start with a decimal digit (so a maximal digit
run ends exactly at its boundary). -/
def noDigitHead : List Char → Prop
  | [] => True
  | c :: _ => isDig c = false

mutual

/-- Recursive-descent value parser modelling `json.loads` on the
grammar produced by `dumpJ` (floats and insignificant whitespace other
than the dumped separators are not modelled).  The fuel bounds nesting
and `sizeJ` of the parsed value is always enough. -/
def parseValue : Nat → List Char → Option (JValue × List Char)
  | 0, _ => none
  | _ + 1, [] => none
  | fuel + 1, c :: cs =>
    if c = 'n' then
      match cs with
      | c1 :: c2 :: c3 :: rest =>
        if c1 = 'u' && c2 = 'l' && c3 = 'l' then some (.null, rest) else none
      | _ => none
    else if c = 't' then
      match cs with
      | c1 :: c2 :: c3 :: rest =>
        if c1 = 'r' && c2 = 'u' && c3 = 'e' then some (.bool true, rest) else none
      | _ => none
    else if c = 'f' then
      match cs with
      | c1 :: c2 :: c3 :: c4 :: rest =>
        if c1 = 'a' && c2 = 'l' && c3 = 's' && c4 = 'e' then some (.bool false, rest)
        else none
      | _ => none
    else if c = '"' then
      (parseStringBody (cs.length + 1) cs).map (fun p => (.str ⟨p.1⟩, p.2))
    else if c = '[' then
      match cs with
      | d :: rest2 =>
        if d = ']' then some (.arr [], rest2)
        else (parseItems fuel (d :: rest2)).map (fun p => (.arr p.1, p.2))
      | [] => none
    else if c = '\x7b' then
      match cs with
      | d :: rest2 =>
        if d = '\x7d' then some (.obj [], rest2)
        else (parseFields fuel (d :: rest2)).map (fun p => (.obj p.1, p.2))
      | [] => none
    else if c = '-' then
      let p := takeDigits cs
      if p.1.isEmpty then none else some (.num (-(decToNat p.1 : Int)), p.2)
    else if isDig c then
      let p := takeDigits (c :: cs)
      some (.num (decToNat p.1 : Int), p.2)
    else none

/-- One-or-more comma-separated array elements followed by `]`. -/
def parseItems : Nat → List Char → Option (List JValue × List Char)
  | 0, _ => none
  | fuel + 1, cs =>
    match parseValue fuel cs with
    | none => none
    | some (v, rest) =>
      match rest with
      | b :: rest2 =>
        if b = ']' then some ([v], rest2)
        else if b = ',' then
          match parseItems fuel (skipSpaces rest2) with
          | some (vs, rest3) => some (v :: vs, rest3)
          | none => none
        else none
      | [] => none

/-- One-or-more comma-separated `"key": value` members followed by the
closing brace. -/
def parseFields : Nat → List Char → Option (List (String × JValue) × List Char)
  | 0, _ => none
  | fuel + 1, cs =>
    match cs with
    | q :: cs1 =>
      if q = '"' then
        match parseStringBody (cs1.length + 1) cs1 with
        | none => none
        | some (k, cs2) =>
          match cs2 with
          | colon :: cs3 =>
            if colon = ':' then
              match parseValue fuel (skipSpaces cs3) with
              | none => none
              | some (v, rest) =>
                match rest with
                | b :: rest2 =>
                  if b = '\x7d' then some ([(⟨k⟩, v)], rest2)
                  else if b = ',' then
                    match parseFields fuel (skipSpaces rest2) with
                    | some (fs, rest3) => some ((⟨k⟩, v) :: fs, rest3)
                    | none => none
                  else none
                | [] => none
            else none
          | [] => none
      else none
    | [] => none

end

mutual

/-- Parser fuel measure of a value. -/
def sizeJ : JValue → Nat
  | .null => 1
  | .bool _ => 1
  | .num _ => 1
  | .str _ => 1
  | .arr xs => 1 + sizeItems xs
  | .obj fs => 1 + sizeFields fs

/-- Parser fuel measure of an element list. -/
def sizeItems : List JValue → Nat
  | [] => 1
  | x :: xs => sizeJ x + 1 + sizeItems xs

/-- Parser fuel measure of a member list. -/
def sizeFields : List (String × JValue) → Nat
  | [] => 1
  | (_, v) :: fs => sizeJ v + 1 + sizeFields fs

end

/-- `json.loads` model: parse one value and require the input to be
fully consumed.  The fuel `2 * length + 1` dominates the parser's
nesting measure on every parseable input. -/
def jsonLoads (s : String) : Option JValue :=
  match parseValue (2 * s.data.length + 1) s.data with
  | some (v, []) => some v
  | _ => none

/-- `json.dumps` model returning a string. -/
def jsonDumps (v : JValue) : String := ⟨dumpJ v⟩

mutual

/-- Well-formed values: every object member list has pairwise distinct
keys, as is automatic for values arising from Python dicts. -/
def WF : JValue → Prop
  | .null => True
  | .bool _ => True
  | .num _ => True
  | .str _ => True
  | .arr xs => WFitems xs
  | .obj fs => (fs.map Prod.fst).Nodup ∧ WFfields fs

/-- All elements well-formed. -/
def WFitems : List JValue → Prop
  | [] => True
  | x :: xs => WF x ∧ WFitems xs

/-- All member values well-formed. -/
def WFfields : List (String × JValue) → Prop
  | [] => True
  | (_, v) :: fs => WF v ∧ WFfields fs

end

/-- The Fernet object of `EncryptionService` modelled abstractly: an
external collaborator whose `encrypt` produces a token and whose
`decrypt` authenticates and either returns the plaintext or raises
`InvalidToken`, modelled as `none`.  The UTF-8 `encode`/`decode` calls
at the boundaries are absorbed into the `String` interface. -/
structure Cipher where
  enc : String → String
  dec : String → Option String

/-- The documented contract of the authenticated cipher: decrypting
with the same key inverts encryption. -/
def Cipher.RoundTrips (c : Cipher) : Prop := ∀ s, c.dec (c.enc s) = some s

/-- `EncryptionService.encrypt_dict`: `json.dumps` the dictionary, then
encrypt the serialized bytes with the Fernet cipher. -/
def encrypt_dict (c : Cipher) (data : JValue) : String :=
  c.enc (jsonDumps data)

/-- `EncryptionService.decrypt_dict`: decrypt with the Fernet cipher,
then `json.loads` the plaintext.  The `except InvalidToken: raise` and
`except Exception: raise` clauses re-raise every failure, so a cipher
or parse failure propagates as `none` and no value is produced. -/
def decrypt_dict (c : Cipher) (encrypted_str : String) : Option JValue :=
  match c.dec encrypted_str with
  | none => none
  | some json_str => jsonLoads json_str

/-- Cipher used by the C3 witness: a trivial but contract-satisfying
instance. -/
def exCipher : Cipher := ⟨fun s => s, fun s => some s⟩

/-- Cipher used by the C4 witness: rejects every blob, as Fernet does
for tokens not produced under its key. -/
def rejectCipher : Cipher := ⟨fun s => s, fun _ => none⟩

/-- Concrete structured secret used by the witnesses. -/
def exSecret : JValue :=
  .obj [("host", .str "imap.example.com"), ("port", .num 993),
    ("password", .str "hunter2\n λ"), ("ssl", .bool true),
    ("folders", .arr [.str "INBOX", .str "Archive"])]

end Crypto

namespace Setup

/-- The `setup_status` singleton row (`app/models/setup.py`), with the
fields the setup endpoints read and write.  `setup_metadata` and the
timestamps are not part of the claims and are omitted. -/
structure SetupStatus where
  is_complete : Bool
  encryption_key_set : Bool
  admin_credentials_set : Bool
  ssl_configured : Bool
  database_configured : Bool
  server_configured : Bool
  ssl_type : Option String
  ssl_domain : Option String
  ssl_email : Option String
  letsencrypt_staging : Bool
deriving DecidableEq

/-- Column defaults of a fresh `SetupStatus` row. -/
def SetupStatus.fresh : SetupStatus :=
  ⟨false, false, false, false, false, false, none, none, none, false⟩

/-- State the setup endpoints mutate: the `.env` file as a list of
lines (the persisted configuration), the `SetupStatus` row, and whether
certificate material has been written to the certificate directory
during the call.  The in-memory `settings` object mutated by step 5 of
`complete_setup` is process memory, not persisted state, and is not
modelled. -/
structure SetupState where
  env : List String
  status : SetupStatus
  certFilesWritten : Bool
deriving DecidableEq

/-- Python `str.startswith`, expressed structurally on the character
lists underlying the strings. -/
def strStartsWith (l p : String) : Bool := p.data.isPrefixOf l.data

/-- Python slicing `l[n:]`. -/
def strDrop (l : String) (n : Nat) : String := ⟨l.data.drop n⟩

/-- The update loop shared by `_update_env_lines` and the inline loops
of the setup endpoints: replace the first `key=`-prefixed line,
reporting whether a replacement happened. -/
def set_or_flag (key value : String) : List String → List String × Bool
  | [] => ([], false)
  | l :: ls =>
    if strStartsWith l (key ++ "=") then ((key ++ "=" ++ value) :: ls, true)
    else
      let p := set_or_flag key value ls
      (l :: p.1, p.2)

/-- `_update_env_lines` (setup.py lines 887-893): update the first
`key=` line in place, else append. -/
def update_env_lines (lines : List String) (key value : String) : List String :=
  let p := set_or_flag key value lines
  if p.2 then p.1 else p.1 ++ [key ++ "=" ++ value]

/-- `_remove_env_line` (setup.py lines 896-901): remove the first
`key=` line, if any. -/
def remove_env_line (lines : List String) (key : String) : List String :=
  match lines with
  | [] => []
  | l :: ls =>
    if strStartsWith l (key ++ "=") then ls
    else l :: remove_env_line ls key

/-- Read a key's value from env lines (how pydantic-settings sees the
`.env` file): first `key=` line wins. -/
def lookup_env (lines : List String) (key : String) : Option String :=
  match lines with
  | [] => none
  | l :: ls =>
    if strStartsWith l (key ++ "=") then some (strDrop l (key ++ "=").length)
    else lookup_env ls key

/-- `Settings.effective_database_url` (config.py lines 58-67):
`PARSEDMARC_DATABASE_URL` when set and non-empty, else a SQLite URL
built from `PARSEDMARC_DB_PATH` (default `./data/parsedmarc.db`). -/
def effective_database_url (env : List String) : String :=
  let dbu := (lookup_env env "PARSEDMARC_DATABASE_URL").getD ""
  if dbu ≠ "" then dbu
  else "sqlite:///" ++ (lookup_env env "PARSEDMARC_DB_PATH").getD "./data/parsedmarc.db"

/-- Split on `/`, structurally. -/
def splitPathAux : List Char → List Char → List String
  | acc, [] => [⟨acc.reverse⟩]
  | acc, c :: cs =>
    if c = '/' then (⟨acc.reverse⟩ : String) :: splitPathAux [] cs
    else splitPathAux (c :: acc) cs

/-- Path components of a POSIX path string, with empty components and
`.` dropped. -/
def splitPath (s : String) : List String :=
  (splitPathAux [] s.data).filter (fun c => c ≠ "" && c ≠ ".")

/-- Lexical `..` elimination over a reversed-prefix accumulator. -/
def normSteps : List String → List String → List String
  | acc, [] => acc.reverse
  | acc, c :: cs =>
    if c = ".." then normSteps (acc.drop 1) cs
    else normSteps (c :: acc) cs

/-- `pathlib.Path(s).resolve()` modelled lexically on a symlink-free
filesystem: absolute inputs normalize in place, relative inputs resolve
against the (already resolved) working directory. -/
def resolvePath (cwd : List String) (s : String) : List String :=
  if strStartsWith s "/" then normSteps [] (splitPath s)
  else normSteps cwd.reverse (splitPath s)

/-- `Path.relative_to(root)` succeeding, for resolved absolute paths:
the root's components are a prefix. -/
def path_is_relative_to (p root : List String) : Bool :=
  root.isPrefixOf p

/-- `_validate_db_path` (setup.py lines 43-56): resolve the path and
accept it only when it is relative to the resolved data directory or
the resolved current working directory; otherwise the function raises
`ValueError`, modelled as `none`. -/
def validate_db_path (dataDir cwd : List String) (db_path : String) :
    Option (List String) :=
  let path := resolvePath cwd db_path
  if path_is_relative_to path dataDir || path_is_relative_to path cwd then some path
  else none

/-- POSIX string of a resolved path (`str(path)`). -/
def renderPath (p : List String) : String :=
  p.foldl (fun a c => a ++ "/" ++ c) ""

/-- Uppercase hex digit. -/
def hexDigitUpper (d : Nat) : Char :=
  if d < 10 then Char.ofNat (48 + d) else Char.ofNat (55 + d)

/-- `urllib.parse.quote_plus` on one character: ASCII alphanumerics and
`_.-~` pass through, space becomes `+`, everything else is
percent-encoded per UTF-8 byte. -/
def quotePlusChar (c : Char) : List Char :=
  if c.isAlphanum || c = '_' || c = '.' || c = '-' || c = '~' then [c]
  else if c = ' ' then ['+']
  else
    (String.singleton c).toUTF8.toList.foldr
      (fun b acc => '%' :: hexDigitUpper (b.toNat / 16) :: hexDigitUpper (b.toNat % 16) :: acc)
      []

/-- `urllib.parse.quote_plus`. -/
def quotePlus (s : String) : String :=
  ⟨(s.data.map quotePlusChar).flatten⟩

/-- `_build_database_url` (setup.py lines 478-487); the trailing
`raise ValueError` for other engine names is modelled as `none`. -/
def build_database_url (db_type db_host : String) (db_port : Nat)
    (db_name db_user db_password : String) : Option String :=
  let user := quotePlus db_user
  let password := quotePlus db_password
  if db_type = "postgresql" then
    some ("postgresql+psycopg2://" ++ user ++ ":" ++ password ++ "@" ++ db_host ++
      ":" ++ toString db_port ++ "/" ++ db_name)
  else if db_type = "mysql" then
    some ("mysql+pymysql://" ++ user ++ ":" ++ password ++ "@" ++ db_host ++
      ":" ++ toString db_port ++ "/" ++ db_name)
  else none

/-- External collaborators of the setup endpoints: the Fernet key
validator and generator, bcrypt hashing, the JWT secret generator, the
certbot outcome, and the filesystem checks of the custom-certificate
branch. -/
structure Ext where
  fernetKeyOk : String → Bool
  generatedKey : String
  hashPassword : String → String
  jwtSecret : String
  acmeSuccess : Bool
  customCertExists : Bool
  customKeyExists : Bool

/-- Transport-level error classes the endpoints raise. -/
inductive SetupError where
  | forbidden (detail : String)
  | badRequest (detail : String)
  | internalError (detail : String)
deriving DecidableEq

/-- An endpoint call's outcome: the HTTP-level result and the state
after the call. -/
structure EndpointResult where
  result : Except SetupError Unit
  state : SetupState

/-- Whether an endpoint call succeeded. -/
def EndpointResult.ok (r : EndpointResult) : Bool :=
  match r.result with
  | .ok _ => true
  | .error _ => false

/-- `_require_setup_incomplete` (setup.py lines 65-72). -/
def require_setup_incomplete (st : SetupState) : Except SetupError Unit :=
  if st.status.is_complete then
    .error (.forbidden "Setup is already complete. Use the settings API to make changes.")
  else .ok ()

/-- `setup_encryption_key` (setup.py lines 140-207): guard, pick or
generate the key, validate it with the Fernet constructor, write it to
`.env` and set the step flag; any failure maps to 400 with nothing
persisted. -/
def setup_encryption_key (ext : Ext) (key_data : Option String)
    (st : SetupState) : EndpointResult :=
  match require_setup_incomplete st with
  | .error e => ⟨.error e, st⟩
  | .ok _ =>
    let encryption_key := key_data.getD ext.generatedKey
    if ext.fernetKeyOk encryption_key then
      let lines := update_env_lines st.env "PARSEDMARC_ENCRYPTION_KEY" encryption_key
      let status2 := { st.status with encryption_key_set := true }
      ⟨.ok (), { st with env := lines, status := status2 }⟩
    else
      ⟨.error (.badRequest "Failed to setup encryption key. Check the key format and try again."), st⟩

/-- `setup_admin_credentials` (setup.py lines 210-276): guard, hash the
password, update username and hash lines, strip every legacy plaintext
`PARSEDMARC_GUI_PASSWORD=` line, append what was not updated, set the
step flag. -/
def setup_admin_credentials (ext : Ext) (username password : String)
    (st : SetupState) : EndpointResult :=
  match require_setup_incomplete st with
  | .error e => ⟨.error e, st⟩
  | .ok _ =>
    let password_hash := ext.hashPassword password
    let p1 := set_or_flag "PARSEDMARC_GUI_USERNAME" username st.env
    let p2 := set_or_flag "PARSEDMARC_GUI_PASSWORD_HASH" password_hash p1.1
    let lines := p2.1.filter (fun l => !(strStartsWith l "PARSEDMARC_GUI_PASSWORD="))
    let lines := if p1.2 then lines else lines ++ ["PARSEDMARC_GUI_USERNAME=" ++ username]
    let lines := if p2.2 then lines
      else lines ++ ["PARSEDMARC_GUI_PASSWORD_HASH=" ++ password_hash]
    let status2 := { st.status with admin_credentials_set := true }
    ⟨.ok (), { st with env := lines, status := status2 }⟩

/-- The three request shapes of the `/ssl` step. -/
inductive SSLConfig where
  | selfSigned (common_name organization : String) (validity_days : Nat)
  | letsEncrypt (domain email : String) (staging : Bool)
  | custom (certificate_path private_key_path : String)

/-- `setup_ssl` (setup.py lines 279-416): guard, then per variant:
self-signed always generates fresh material; Let's Encrypt consults the
certbot outcome and raises 400 on failure with nothing persisted;
custom checks the files exist.  Successful variants set the SSL step
fields and force `PARSEDMARC_SSL_ENABLED=true` in `.env`.  (The
certificate-serial metadata is not modelled.) -/
def setup_ssl (ext : Ext) (cfg : SSLConfig) (st : SetupState) : EndpointResult :=
  match require_setup_incomplete st with
  | .error e => ⟨.error e, st⟩
  | .ok _ =>
    match cfg with
    | .selfSigned cn _org _days =>
      let status2 := { st.status with
        ssl_configured := true,
        ssl_type := some "self-signed",
        ssl_domain := some cn }
      let st1 := { st with certFilesWritten := true, status := status2 }
      ⟨.ok (), { st1 with env := update_env_lines st1.env "PARSEDMARC_SSL_ENABLED" "true" }⟩
    | .letsEncrypt domain email staging =>
      if ext.acmeSuccess then
        let status2 := { st.status with
          ssl_configured := true,
          ssl_type := some "letsencrypt",
          ssl_domain := some domain,
          ssl_email := some email,
          letsencrypt_staging := staging }
        let st1 := { st with certFilesWritten := true, status := status2 }
        ⟨.ok (), { st1 with env := update_env_lines st1.env "PARSEDMARC_SSL_ENABLED" "true" }⟩
      else ⟨.error (.badRequest "Let's Encrypt certificate request failed"), st⟩
    | .custom _cert_path _key_path =>
      if ext.customCertExists && ext.customKeyExists then
        let status2 := { st.status with ssl_configured := true, ssl_type := some "custom" }
        let st1 := { st with status := status2 }
        ⟨.ok (), { st1 with env := update_env_lines st1.env "PARSEDMARC_SSL_ENABLED" "true" }⟩
      else ⟨.error (.badRequest "Certificate file not found"), st⟩

/-- `setup_server` (setup.py lines 419-475): guard, write the four
server settings in dict order, set the step flag. -/
def setup_server (host : String) (port : Nat) (cors_origins log_level : String)
    (st : SetupState) : EndpointResult :=
  match require_setup_incomplete st with
  | .error e => ⟨.error e, st⟩
  | .ok _ =>
    let lines := update_env_lines st.env "PARSEDMARC_HOST" host
    let lines := update_env_lines lines "PARSEDMARC_PORT" (toString port)
    let lines := update_env_lines lines "PARSEDMARC_CORS_ORIGINS" cors_origins
    let lines := update_env_lines lines "PARSEDMARC_LOG_LEVEL" log_level
    let status2 := { st.status with server_configured := true }
    ⟨.ok (), { st with env := lines, status := status2 }⟩

/-- The `DatabaseSetup` request schema with its defaults. -/
structure DatabaseSetup where
  db_type : String := "sqlite"
  db_path : String := "./data/parsedmarc.db"
  db_host : Option String := none
  db_port : Option Nat := none
  db_name : Option String := none
  db_user : Option String := none
  db_password : Option String := none

/-- `setup_database` (setup.py lines 490-542): guard; for SQLite,
validate the path FIRST, then set `PARSEDMARC_DB_PATH` and remove
`PARSEDMARC_DATABASE_URL`; for PostgreSQL/MySQL, build the URL and set
`PARSEDMARC_DATABASE_URL` (the `PARSEDMARC_DB_PATH` line is not
touched).  Any raised error maps to 400 with nothing persisted.  The
`mkdir` of the SQLite parent directory is a filesystem effect outside
this state. -/
def setup_database (dataDir cwd : List String) (db_config : DatabaseSetup)
    (st : SetupState) : EndpointResult :=
  match require_setup_incomplete st with
  | .error e => ⟨.error e, st⟩
  | .ok _ =>
    if db_config.db_type = "sqlite" then
      match validate_db_path dataDir cwd db_config.db_path with
      | none =>
        ⟨.error (.badRequest "Failed to setup database. Check configuration and try again."), st⟩
      | some validated_path =>
        let lines := update_env_lines st.env "PARSEDMARC_DB_PATH" (renderPath validated_path)
        let lines := remove_env_line lines "PARSEDMARC_DATABASE_URL"
        let status2 := { st.status with database_configured := true }
        ⟨.ok (), { st with env := lines, status := status2 }⟩
    else
      match build_database_url db_config.db_type (db_config.db_host.getD "localhost")
          (db_config.db_port.getD (if db_config.db_type = "postgresql" then 5432 else 3306))
          (db_config.db_name.getD "") (db_config.db_user.getD "")
          (db_config.db_password.getD "") with
      | none =>
        ⟨.error (.badRequest "Failed to setup database. Check configuration and try again."), st⟩
      | some database_url =>
        let lines := update_env_lines st.env "PARSEDMARC_DATABASE_URL" database_url
        let status2 := { st.status with database_configured := true }
        ⟨.ok (), { st with env := lines, status := status2 }⟩

/-- The `CompleteSetup` request schema with its defaults. -/
structure CompleteSetup where
  encryption_key : Option String := none
  admin_username : String
  admin_password : String
  ssl_type : String
  ssl_domain : Option String := none
  ssl_email : Option String := none
  ssl_staging : Bool := false
  ssl_common_name : Option String := none
  host : String := "0.0.0.0"
  port : Nat := 8000
  cors_origins : String := "http://localhost:3000,http://localhost:8000"
  log_level : String := "INFO"
  db_type : String := "sqlite"
  db_path : String := "./data/parsedmarc.db"
  db_host : Option String := none
  db_port : Option Nat := none
  db_name : Option String := none
  db_user : Option String := none
  db_password : Option String := none

/-- Step 2 of `complete_setup`: the failure raised by the SSL block,
when any.  Self-signed generation always succeeds; Let's Encrypt
requires domain and email and a successful certbot run. -/
def complete_ssl_fail (ext : Ext) (pay : CompleteSetup) : Option SetupError :=
  if pay.ssl_type = "letsencrypt" then
    if pay.ssl_domain = none || pay.ssl_email = none then
      some (.badRequest "Domain and email required for Let's Encrypt")
    else if ¬ ext.acmeSuccess then
      some (.badRequest "Let's Encrypt failed")
    else none
  else none

/-- Step 3 of `complete_setup`, first half: the `env_updates` mapping
(nine fixed keys in dict insertion order, then the database key); the
URL builder's `ValueError` for unknown engines propagates as `none`. -/
def complete_env_updates (ext : Ext) (pay : CompleteSetup)
    (encryption_key : String) : Option (List (String × String)) :=
  let password_hash := ext.hashPassword pay.admin_password
  let base : List (String × String) :=
    [("PARSEDMARC_ENCRYPTION_KEY", encryption_key),
     ("PARSEDMARC_GUI_USERNAME", pay.admin_username),
     ("PARSEDMARC_GUI_PASSWORD_HASH", password_hash),
     ("PARSEDMARC_SECRET_KEY", ext.jwtSecret),
     ("PARSEDMARC_HOST", pay.host),
     ("PARSEDMARC_PORT", toString pay.port),
     ("PARSEDMARC_CORS_ORIGINS", pay.cors_origins),
     ("PARSEDMARC_LOG_LEVEL", pay.log_level),
     ("PARSEDMARC_SSL_ENABLED", if pay.ssl_type ≠ "skip" then "true" else "false")]
  if pay.db_type = "sqlite" then
    some (base ++ [("PARSEDMARC_DB_PATH", pay.db_path)])
  else
    (build_database_url pay.db_type (pay.db_host.getD "localhost")
      (pay.db_port.getD (if pay.db_type = "postgresql" then 5432 else 3306))
      (pay.db_name.getD "") (pay.db_user.getD "")
      (pay.db_password.getD "")).map
      (fun url => base ++ [("PARSEDMARC_DATABASE_URL", url)])

/-- Step 3 of `complete_setup`, second half: apply the updates to the
`.env` lines, strip the legacy plaintext password line, and remove the
conflicting database key. -/
def complete_env_write (updates : List (String × String)) (pay : CompleteSetup)
    (env : List String) : List String :=
  let lines := updates.foldl (fun ls kv => update_env_lines ls kv.1 kv.2) env
  let lines := remove_env_line lines "PARSEDMARC_GUI_PASSWORD"
  if pay.db_type = "sqlite" then remove_env_line lines "PARSEDMARC_DATABASE_URL"
  else remove_env_line lines "PARSEDMARC_DB_PATH"

/-- Step 4 of `complete_setup`: only for SQLite, validate the database
path; a `ValueError` here is caught by the outer handler as a 500. -/
def complete_db_path_check (dataDir cwd : List String) (pay : CompleteSetup) :
    Except SetupError Unit :=
  if pay.db_type = "sqlite" then
    match validate_db_path dataDir cwd pay.db_path with
    | none =>
      .error (.internalError "Failed to complete setup. Check configuration and try again.")
    | some _ => .ok ()
  else .ok ()

/-- Step 6 of `complete_setup`: the committed `SetupStatus` row. -/
def complete_status (pay : CompleteSetup) : SetupStatus :=
  { is_complete := true,
    encryption_key_set := true,
    admin_credentials_set := true,
    ssl_configured := pay.ssl_type ≠ "skip",
    database_configured := true,
    server_configured := true,
    ssl_type := if pay.ssl_type ≠ "skip" then some pay.ssl_type else none,
    ssl_domain := pay.ssl_domain,
    ssl_email := pay.ssl_email,
    letsencrypt_staging := pay.ssl_staging }

/-- `complete_setup` (setup.py lines 545-767).  NOTE: unlike every
individual step endpoint, this endpoint has no
`_require_setup_incomplete` guard.  Order of effects, as in the source:
(1) validate the (possibly auto-generated) encryption key — 400 before
any effect; (2) SSL: self-signed generation writes certificate
material, a Let's Encrypt failure raises 400 before any other effect;
(3) compute and WRITE the full `.env` update; (4) only for SQLite,
validate the database path — a failure here raises after the `.env`
write, mapped to 500 by the outer handler; (5) in-memory settings (not
modelled); (6) set every step flag, `is_complete` and the SSL fields
and commit.  The auto-login cookies of step 7 are transport artifacts
outside the model. -/
def complete_setup (ext : Ext) (dataDir cwd : List String) (pay : CompleteSetup)
    (st : SetupState) : EndpointResult :=
  let encryption_key := pay.encryption_key.getD ext.generatedKey
  if ¬ ext.fernetKeyOk encryption_key then
    ⟨.error (.badRequest "Invalid encryption key format"), st⟩
  else
    match complete_ssl_fail ext pay with
    | some e => ⟨.error e, st⟩
    | none =>
      let st1 :=
        if pay.ssl_type = "self-signed" || pay.ssl_type = "letsencrypt" then
          { st with certFilesWritten := true }
        else st
      match complete_env_updates ext pay encryption_key with
      | none =>
        ⟨.error (.internalError "Failed to complete setup. Check configuration and try again."), st1⟩
      | some updates =>
        let st2 := { st1 with env := complete_env_write updates pay st1.env }
        match complete_db_path_check dataDir cwd pay with
        | .error e => ⟨.error e, st2⟩
        | .ok _ => ⟨.ok (), { st2 with status := complete_status pay }⟩

/-- Concrete collaborators for the counterexamples and witnesses. -/
def exExt : Ext :=
  { fernetKeyOk := fun k => k.length = 44,
    generatedKey := "AAAAAAAAAAAAAAAAAAAAAAAAAAAAAAAAAAAAAAAAAAA=",
    hashPassword := fun p => "bcrypt$" ++ p,
    jwtSecret := "jwtsecret",
    acmeSuccess := false,
    customCertExists := false,
    customKeyExists := false }

/-- Resolved data directory used in the concrete scenarios. -/
def exDataDir : List String := ["app", "data"]

/-- Resolved working directory used in the concrete scenarios. -/
def exCwd : List String := ["app"]

/-- A fresh, fully unconfigured state. -/
def exFresh : SetupState := ⟨[], SetupStatus.fresh, false⟩

/-- A state in which setup has been completed. -/
def exDone : SetupState :=
  ⟨["PARSEDMARC_ENCRYPTION_KEY=AAAAAAAAAAAAAAAAAAAAAAAAAAAAAAAAAAAAAAAAAAA="],
    { SetupStatus.fresh with
      is_complete := true,
      encryption_key_set := true,
      admin_credentials_set := true,
      ssl_configured := true,
      database_configured := true,
      server_configured := true }, false⟩

/-- Valid single-shot payload (skip SSL, SQLite inside the cwd). -/
def exPayload : CompleteSetup :=
  { admin_username := "admin", admin_password := "hunter2hunter2",
    ssl_type := "skip", db_path := "./data/parsedmarc.db" }

/-- Single-shot payload whose SQLite path resolves outside the allowed
roots. -/
def exEvilPayload : CompleteSetup :=
  { admin_username := "admin", admin_password := "hunter2hunter2",
    ssl_type := "skip", db_path := "/etc/evil.db" }

/-- Database-step payload: SQLite inside the cwd. -/
def exSqlitePay : DatabaseSetup := { db_type := "sqlite", db_path := "./x.db" }

/-- Database-step payload: PostgreSQL. -/
def exPgPay : DatabaseSetup :=
  { db_type := "postgresql", db_host := some "h", db_name := some "d",
    db_user := some "u", db_password := some "p" }

/-- Database-step payload whose SQLite path escapes the allowed roots. -/
def exEvilDbPay : DatabaseSetup := { db_type := "sqlite", db_path := "/etc/evil.db" }

/-- Single-shot payload with a malformed encryption key. -/
def exBadKeyPayload : CompleteSetup :=
  { exPayload with encryption_key := some "short" }

/-- Single-shot Let's Encrypt payload (certbot will fail in `exExt`). -/
def exLEPayload : CompleteSetup :=
  { exPayload with
    ssl_type := "letsencrypt",
    ssl_domain := some "example.test",
    ssl_email := some "a@example.test" }

end Setup

namespace Cert

/-- The certificate files `CertificateService` keeps under its
certificate directory (certificate_service.py lines 50-59). -/
inductive CertFile where
  | letsencryptCert
  | letsencryptFullchain
  | letsencryptKey
  | customCert
  | customKey
  | selfSignedCert
  | selfSignedKey
deriving DecidableEq

/-- The fields of the dict `get_certificate_info` builds from a parsed
certificate.  Times are abstract ISO strings; `is_expired` and
`days_until_expiry` are the comparison results against `utcnow` at call
time. -/
structure CertInfo where
  subject : String
  issuer : String
  serial_number : Nat
  not_before : String
  expires : String
  is_expired : Bool
  days_until_expiry : Int
  is_self_signed : Bool
deriving DecidableEq

/-- `get_certificate_info` returns the info dict, or an `error` dict
when reading or parsing the file fails. -/
inductive CertInfoResult where
  | ok (info : CertInfo)
  | err (msg : String)
deriving DecidableEq

/-- Filesystem state as `get_active_certificate` observes it: existence
of the files it probes, and the outcome of `get_certificate_info` on
each file (an oracle for the external X.509 parser and the clock). -/
structure CertFS where
  letsencryptFullchainExists : Bool
  customCertExists : Bool
  customKeyExists : Bool
  selfSignedCertExists : Bool
  infoAt : CertFile → CertInfoResult

/-- The dict returned by `get_active_certificate`: the info dict merged
with the `type`, `certificate` and `private_key` keys. -/
structure ActiveCert where
  info : CertInfoResult
  type : String
  certificate : CertFile
  private_key : CertFile
deriving DecidableEq

/-- `CertificateService.get_certificate_info` on a path. -/
def get_certificate_info (fs : CertFS) (p : CertFile) : CertInfoResult :=
  fs.infoAt p

/-- `CertificateService.get_active_certificate` (certificate_service.py
lines 695-719): resolve by priority Let's Encrypt > custom >
self-signed, on FILE EXISTENCE ONLY, and return the selected pair's
info. -/
def get_active_certificate (fs : CertFS) : Option ActiveCert :=
  if fs.letsencryptFullchainExists then
    some {
      info := get_certificate_info fs .letsencryptCert, type := "letsencrypt",
      certificate := .letsencryptFullchain, private_key := .letsencryptKey }
  else if fs.customCertExists && fs.customKeyExists then
    some {
      info := get_certificate_info fs .customCert, type := "custom",
      certificate := .customCert, private_key := .customKey }
  else if fs.selfSignedCertExists then
    some {
      info := get_certificate_info fs .selfSignedCert, type := "self-signed",
      certificate := .selfSignedCert, private_key := .selfSignedKey }
  else none

/-- An expired Let's Encrypt certificate's info. -/
def exExpiredInfo : CertInfo :=
  { subject := "CN=example.test", issuer := "CN=R11,O=Lets Encrypt,C=US",
    serial_number := 77, not_before := "2025-05-01T00:00:00",
    expires := "2025-07-30T00:00:00", is_expired := true,
    days_until_expiry := -74, is_self_signed := false }

/-- Filesystem with an expired Let's Encrypt pair present (and a valid
self-signed pair below it in priority). -/
def exExpiredFS : CertFS :=
  { letsencryptFullchainExists := true, customCertExists := false,
    customKeyExists := false, selfSignedCertExists := true,
    infoAt := fun _ => .ok exExpiredInfo }

end Cert

namespace Mask

/-- Python dicts with string keys and JSON-shaped values, as an
association list (first occurrence wins, matching dict key uniqueness). -/
abbrev Dict := List (String × Crypto.JValue)

/-- Python truthiness of the JSON-shaped values the settings dicts
hold. -/
def truthy : Crypto.JValue → Bool
  | .null => false
  | .bool b => b
  | .num n => n != 0
  | .str s => s != ""
  | .arr xs => !xs.isEmpty
  | .obj fs => !fs.isEmpty

/-- `settings[k]` lookup / `settings.get(k)`. -/
def dictGet : Dict → String → Option Crypto.JValue
  | [], _ => none
  | (k2, v) :: rest, k => if k2 = k then some v else dictGet rest k

/-- `settings[k] = v` assignment: replace the first binding of `k`, or
append a new one. -/
def dictSet : Dict → String → Crypto.JValue → Dict
  | [], k, v => [(k, v)]
  | (k2, v2) :: rest, k, v =>
      if k2 = k then (k2, v) :: rest else (k2, v2) :: dictSet rest k v

/-- Truthiness of `settings.get(k)` (a missing key reads as `None`,
which is falsy). -/
def getTruthy (d : Dict) (k : String) : Bool :=
  match dictGet d k with
  | some v => truthy v
  | none => false

/-- The constant sentinel written over masked secrets. -/
def SENTINEL : Crypto.JValue := Crypto.JValue.str "***ENCRYPTED***"

/-- One `if k in masked and masked[k]: masked[k] = "***ENCRYPTED***"`
step of `_mask_sensitive_fields`. -/
def maskIfTruthy (d : Dict) (k : String) : Dict :=
  match dictGet d k with
  | some v => if truthy v then dictSet d k SENTINEL else d
  | none => d

/-- `_mask_sensitive_fields` (output_configs.py lines 20-34): masks
`password`, `token`, `secret_access_key` and `api_key` in that order
when present and truthy.  The `output_type` parameter is unused by the
source body. -/
def mask_sensitive_fields (settings : Dict) (_output_type : String) : Dict :=
  maskIfTruthy (maskIfTruthy (maskIfTruthy (maskIfTruthy settings
    "password") "token") "secret_access_key") "api_key"

/-- The IMAP branch of `_serialize_config_for_response`
(mailbox_configs.py line 45): an UNCONDITIONAL assignment
`settings["password"] = "***ENCRYPTED***" if settings.get("password")
else None`. -/
def mask_imap_settings (settings : Dict) : Dict :=
  dictSet settings "password"
    (if getTruthy settings "password" then SENTINEL else Crypto.JValue.null)

/-- Second half of the msgraph branch (mailbox_configs.py lines 52-53):
mask `password` when truthy. -/
def mask_msgraph_password (settings : Dict) : Dict :=
  if getTruthy settings "password" then dictSet settings "password" SENTINEL
  else settings

/-- The msgraph branch of `_serialize_config_for_response`
(mailbox_configs.py lines 50-53): mask `client_secret` then `password`,
each when truthy. -/
def mask_msgraph_settings (settings : Dict) : Dict :=
  mask_msgraph_password
    (if getTruthy settings "client_secret"
      then dictSet settings "client_secret" SENTINEL else settings)

/-- The gmail branch (mailbox_configs.py lines 55-58) passes the
decrypted settings through unmasked. -/
def mask_gmail_settings (settings : Dict) : Dict := settings

/-- The maildir branch (mailbox_configs.py lines 60-62) passes the
decrypted settings through unmasked. -/
def mask_maildir_settings (settings : Dict) : Dict := settings

/-- Output settings holding a truthy `client_secret` and a falsy
(empty) `password`. -/
def exLeakSettings : Dict :=
  [("client_secret", Crypto.JValue.str "super-secret-value"),
   ("password", Crypto.JValue.str "")]

/-- Mailbox/output settings with truthy secrets and a non-sensitive
field, for the witness. -/
def exMaskSettings : Dict :=
  [("host", Crypto.JValue.str "smtp.example.test"),
   ("password", Crypto.JValue.str "hunter2"),
   ("client_secret", Crypto.JValue.str "cs-123")]

end Mask

namespace Migration

theorem purge_step_db_eq {Row : Type} (L : List String) (db : DB Row) (u : String) :
    (purge_step L db).1 u = if u ∈ L ∧ (db u).isSome then some [] else db u := by
  induction L generalizing db with
  | nil => simp [purge_step]
  | cons t ts ih =>
    by_cases hut : u = t
    · subst hut
      cases h : db u with
      | none =>
        simp only [purge_step, h]
        rw [ih]
        simp [h]
      | some rows =>
        simp only [purge_step, h]
        rw [ih]
        by_cases hmem : u ∈ ts <;> simp [hmem, h]
    · cases h : db t with
      | none =>
        simp only [purge_step, h]
        rw [ih]
        simp [hut, List.mem_cons]
      | some rows =>
        simp only [purge_step, h]
        rw [ih]
        simp [hut, List.mem_cons, Ne.symm hut]

theorem purge_step_counts_zero {Row : Type} (L : List String) (db : DB Row)
    (h : ∀ u ∈ L, db u = none ∨ db u = some []) :
    ∀ p ∈ (purge_step L db).2, p.2 = 0 := by
  induction L generalizing db with
  | nil => simp [purge_step]
  | cons t ts ih =>
    intro p hp
    rcases h t (by simp) with ht | ht
    · rw [purge_step, ht] at hp
      exact ih db (fun u hu => h u (List.mem_cons_of_mem _ hu)) p hp
    · rw [purge_step, ht] at hp
      simp only [List.mem_cons] at hp
      rcases hp with hp | hp
      · simp [hp]
      · refine ih _ (fun u hu => ?_) p hp
        by_cases hut : u = t
        · subst hut; simp
        · simp only [hut, if_false]
          exact h u (List.mem_cons_of_mem _ hu)

theorem purged_db_small {Row : Type} (db : DB Row) :
    ∀ u ∈ TABLE_ORDER.reverse, (purge_all_data db).db u = none ∨
      (purge_all_data db).db u = some [] := by
  intro u hu
  have heq : (purge_all_data db).db u =
      if u ∈ TABLE_ORDER.reverse ∧ (db u).isSome then some [] else db u :=
    purge_step_db_eq TABLE_ORDER.reverse db u
  cases h : db u with
  | none => left; rw [heq, h]; simp
  | some rows => right; rw [heq, h]; simp [hu]

/-- **C2.** For every database state, `purge_all_data` succeeds, a
subsequent `get_table_counts` reports zero for every known table, and
purging is idempotent: a second consecutive run reports 0 rows deleted
for every table it touches and leaves the database state unchanged. -/
theorem C2_purge_counts_zero_and_idempotent {Row : Type} (db : DB Row) :
    (purge_all_data db).success = true ∧
    (∀ t ∈ TABLE_ORDER, countOf (purge_all_data db).db t = 0) ∧
    (∀ p ∈ (purge_all_data (purge_all_data db).db).rows_deleted, p.2 = 0) ∧
    (purge_all_data (purge_all_data db).db).db = (purge_all_data db).db := by
  refine ⟨rfl, ?_, ?_, ?_⟩
  · intro t ht
    have := purge_step_db_eq TABLE_ORDER.reverse db t
    show countOf (purge_step TABLE_ORDER.reverse db).1 t = 0
    unfold countOf
    rw [this]
    cases h : db t with
    | none => simp [h, ht]
    | some rows => simp [h, ht]
  · exact purge_step_counts_zero _ _ (purged_db_small db)
  · funext u
    show (purge_step TABLE_ORDER.reverse (purge_all_data db).db).1 u = _
    rw [purge_step_db_eq]
    by_cases hu : u ∈ TABLE_ORDER.reverse
    · rcases purged_db_small db u hu with h | h <;> simp [h, hu]
    · simp [hu]

/-- Witness for C2 at a concrete database. -/
theorem C2_purge_counts_zero_and_idempotent_witness :
    countOf (purge_all_data exPurge).db "parse_jobs" = 0 ∧
    ∀ p ∈ (purge_all_data (purge_all_data exPurge).db).rows_deleted, p.2 = 0 := by
  exact ⟨(C2_purge_counts_zero_and_idempotent exPurge).2.1 "parse_jobs" (by decide),
    (C2_purge_counts_zero_and_idempotent exPurge).2.2.1⟩

theorem countOf_eq {Row : Type} (db : DB Row) (t : String) :
    countOf db t = ((db t).getD []).length := by
  unfold countOf
  cases h : db t <;> simp [h]

theorem copy_tables_cons_none {Row : Type} (src : DB Row) (t : String)
    (ts : List String) (tgt : DB Row) (hsrc : src t = none) :
    copy_tables src (t :: ts) tgt = none := by
  rw [copy_tables, hsrc]

theorem copy_tables_cons_some {Row : Type} (src : DB Row) (t : String)
    (ts : List String) (tgt : DB Row) (rows : List Row)
    (hsrc : src t = some rows) :
    copy_tables src (t :: ts) tgt =
      if rows.isEmpty then
        match copy_tables src ts tgt with
        | some (tgt2, cs) => some (tgt2, (t, 0) :: cs)
        | none => none
      else
        match copy_tables src ts (fun u => if u = t then some rows else tgt u) with
        | some (tgt2, cs) => some (tgt2, (t, rows.length) :: cs)
        | none => none := by
  rw [copy_tables, hsrc]

theorem copy_tables_target_eq {Row : Type} (src : DB Row) (L : List String)
    (hnd : L.Nodup) (tgt tgt2 : DB Row) (cs : List (String × Nat))
    (hc : copy_tables src L tgt = some (tgt2, cs)) (u : String) :
    tgt2 u = if u ∈ L ∧ ((src u).getD []).isEmpty = false then src u else tgt u := by
  induction L generalizing tgt cs with
  | nil =>
    simp only [copy_tables, Option.some.injEq, Prod.mk.injEq] at hc
    simp [← hc.1]
  | cons t ts ih =>
    cases hsrc : src t with
    | none => rw [copy_tables_cons_none src t ts tgt hsrc] at hc; exact absurd hc (by simp)
    | some rows =>
      rw [copy_tables_cons_some src t ts tgt rows hsrc] at hc
      have hnd' : ts.Nodup := hnd.of_cons
      have htts : t ∉ ts := by
        have := List.nodup_cons.mp hnd; exact this.1
      by_cases hrows : rows.isEmpty
      · rw [if_pos hrows] at hc
        cases hrec : copy_tables src ts tgt with
        | none => rw [hrec] at hc; exact absurd hc (by simp)
        | some p =>
          obtain ⟨tgt3, cs3⟩ := p
          rw [hrec] at hc
          simp only [Option.some.injEq, Prod.mk.injEq] at hc
          obtain ⟨h1, _⟩ := hc
          subst h1
          rw [ih hnd' tgt cs3 hrec]
          by_cases hut : u = t
          · subst hut
            have hP : ((src u).getD []).isEmpty = true := by
              rw [hsrc]
              simpa using hrows
            rw [if_neg (by rintro ⟨hmem, hfalse⟩; rw [hP] at hfalse; exact absurd hfalse (by simp)),
              if_neg (by rintro ⟨-, hfalse⟩; rw [hP] at hfalse; exact absurd hfalse (by simp))]
          · by_cases hm : u ∈ ts
            · by_cases hP : ((src u).getD []).isEmpty = false
              · simp [hm, hP, List.mem_cons]
              · simp [hm, hP, List.mem_cons, hut]
            · simp [hm, List.mem_cons, hut]
      · rw [if_neg hrows] at hc
        cases hrec : copy_tables src ts (fun v => if v = t then some rows else tgt v) with
        | none => rw [hrec] at hc; exact absurd hc (by simp)
        | some p =>
          obtain ⟨tgt3, cs3⟩ := p
          rw [hrec] at hc
          simp only [Option.some.injEq, Prod.mk.injEq] at hc
          obtain ⟨h1, _⟩ := hc
          subst h1
          rw [ih hnd' _ cs3 hrec]
          by_cases hut : u = t
          · subst hut
            have hP : ((src u).getD []).isEmpty = false := by
              rw [hsrc]
              simpa using hrows
            rw [if_neg (fun h => htts h.1), if_pos rfl,
              if_pos ⟨List.mem_cons_self u ts, hP⟩, hsrc]
          · by_cases hm : u ∈ ts
            · by_cases hP : ((src u).getD []).isEmpty = false
              · simp [hm, hP, List.mem_cons, hut]
              · simp [hm, hP, List.mem_cons, hut]
            · simp [hm, List.mem_cons, hut]

theorem copy_tables_total {Row : Type} (src : DB Row) (L : List String)
    (tgt : DB Row) (h : ∀ t ∈ L, (src t).isSome) :
    ∃ tgt2 cs, copy_tables src L tgt = some (tgt2, cs) := by
  induction L generalizing tgt with
  | nil => exact ⟨tgt, [], rfl⟩
  | cons t ts ih =>
    have ht : (src t).isSome := h t (by simp)
    cases hsrc : src t with
    | none => rw [hsrc] at ht; exact absurd ht (by simp)
    | some rows =>
      have h' : ∀ u ∈ ts, (src u).isSome := fun u hu => h u (List.mem_cons_of_mem _ hu)
      by_cases hrows : rows.isEmpty
      · obtain ⟨tgt2, cs, hc⟩ := ih tgt h'
        exact ⟨tgt2, (t, 0) :: cs, by
          rw [copy_tables_cons_some src t ts tgt rows hsrc, if_pos hrows, hc]⟩
      · obtain ⟨tgt2, cs, hc⟩ := ih (fun v => if v = t then some rows else tgt v) h'
        exact ⟨tgt2, (t, rows.length) :: cs, by
          rw [copy_tables_cons_some src t ts tgt rows hsrc, if_neg hrows, hc]⟩

theorem TABLE_ORDER_nodup : TABLE_ORDER.Nodup := by decide

/-- **C1 (amended).** The source database state returned by `migrate` is
always the input source state (the engine never writes to the source,
also on failure), and when every table exists in the source and every
table that is empty in the source is also empty in the target,
migration succeeds and the target's table counts equal the source's.
The extra emptiness condition is forced by the code: the copy loop
`continue`s on an empty source table before clearing the target table,
so pre-existing target rows survive there. -/
theorem C1_migrate_amended {Row : Type} (src tgt : DB Row) :
    (migrate src tgt).source = src ∧
    ((∀ t ∈ TABLE_ORDER, (src t).isSome) →
      (∀ t ∈ TABLE_ORDER, src t = some [] → countOf tgt t = 0) →
      (migrate src tgt).success = true ∧
      get_table_counts (migrate src tgt).target = get_table_counts src) := by
  constructor
  · unfold migrate
    cases hc : copy_tables src TABLE_ORDER (create_all tgt) with
    | none => simp [hc]
    | some p => obtain ⟨a, b⟩ := p; simp [hc]
  · intro hsrc hemp
    obtain ⟨tgt2, cs, hc⟩ := copy_tables_total src TABLE_ORDER (create_all tgt) hsrc
    have hm : migrate src tgt =
        { success := true, tables_migrated := cs.length, row_counts := cs,
          source := src, target := tgt2 } := by
      simp only [migrate, hc]
    refine ⟨by rw [hm], ?_⟩
    rw [hm]
    show TABLE_ORDER.map (fun t => (t, countOf tgt2 t)) =
      TABLE_ORDER.map (fun t => (t, countOf src t))
    rw [List.map_eq_map_iff]
    intro t ht
    have hchar := copy_tables_target_eq src TABLE_ORDER TABLE_ORDER_nodup
      (create_all tgt) tgt2 cs hc t
    have htsome : (src t).isSome := hsrc t ht
    have hca : create_all tgt t = some ((tgt t).getD []) := by
      unfold create_all
      rw [if_pos ht]
    have hcnt : countOf tgt2 t = countOf src t := by
      cases hsrcv : src t with
      | none => rw [hsrcv] at htsome; exact absurd htsome (by simp)
      | some rows =>
        cases rows with
        | nil =>
          have h0 : countOf tgt t = 0 := hemp t ht hsrcv
          have h2 : tgt2 t = create_all tgt t := by
            rw [hchar, if_neg]
            rintro ⟨-, hfalse⟩
            rw [hsrcv] at hfalse
            simp at hfalse
          rw [countOf_eq, h2, hca, countOf_eq, hsrcv]
          rw [countOf_eq] at h0
          simpa using h0
        | cons r rs =>
          have h2 : tgt2 t = src t := by
            rw [hchar, if_pos]
            exact ⟨ht, by rw [hsrcv]; rfl⟩
          rw [countOf_eq, countOf_eq, h2]
    simp [hcnt]

/-- Witness for the amended C1 at concrete databases. -/
theorem C1_migrate_amended_witness :
    (migrate exPurge exPurge).source = exPurge ∧
    (migrate exPurge exPurge).success = true ∧
    get_table_counts (migrate exPurge exPurge).target = get_table_counts exPurge := by
  obtain ⟨h1, h2⟩ := C1_migrate_amended exPurge exPurge
  exact ⟨h1, h2 (by decide) (by decide)⟩

/-- **C1 is false as stated**: for the concrete databases `exA`
(non-empty source, `activity_logs` empty) and `exB` (one stale
`activity_logs` row), migration succeeds yet the target's table counts
differ from the source's, because the copy loop skips the
target-clearing step for tables that are empty in the source. -/
theorem C1_counterexample :
    (migrate exA exB).success = true ∧
    get_table_counts (migrate exA exB).target ≠ get_table_counts exA := by
  decide

end Migration

namespace Crypto

theorem char_toNat_lt (c : Char) : c.toNat < 0x110000 := by
  have h := c.valid
  have he : c.toNat = c.val.toNat := rfl
  rw [he]
  rcases h with h | h <;> omega

theorem char_not_surrogate (c : Char) : ¬(0xd800 ≤ c.toNat ∧ c.toNat < 0xe000) := by
  have h := c.valid
  have he : c.toNat = c.val.toNat := rfl
  rw [he]
  rcases h with h | h <;> omega

theorem toNat_ofNat_valid {n : Nat} (h : n.isValidChar) : (Char.ofNat n).toNat = n := by
  unfold Char.ofNat
  rw [dif_pos h]
  rfl

theorem decToNat_append (ds : List Char) (c : Char) :
    decToNat (ds ++ [c]) = decToNat ds * 10 + (c.toNat - 48) := by
  unfold decToNat
  rw [List.foldl_append]
  rfl

theorem digitChar_toNat {d : Nat} (h : d < 10) : (digitChar d).toNat = 48 + d := by
  unfold digitChar
  exact toNat_ofNat_valid (Or.inl (by omega))

theorem digitChar_isDig {d : Nat} (h : d < 10) : isDig (digitChar d) = true := by
  unfold isDig
  rw [digitChar_toNat h]
  simp only [Bool.and_eq_true, decide_eq_true_eq]
  omega

theorem natToDecAux_spec : ∀ fuel n, n ≤ fuel →
    decToNat (natToDecAux fuel n) = n ∧ ∀ c ∈ natToDecAux fuel n, isDig c = true := by
  intro fuel
  induction fuel with
  | zero =>
    intro n h
    interval_cases n
    simp [natToDecAux, decToNat]
  | succ fuel ih =>
    intro n hn
    by_cases h0 : n = 0
    · subst h0
      simp [natToDecAux, decToNat]
    · have hdiv : n / 10 ≤ fuel := by
        have hlt : n / 10 < n := Nat.div_lt_self (Nat.pos_of_ne_zero h0) (by omega)
        omega
      obtain ⟨ih1, ih2⟩ := ih (n / 10) hdiv
      simp only [natToDecAux, if_neg h0]
      constructor
      · rw [decToNat_append, ih1, digitChar_toNat (Nat.mod_lt _ (by omega))]
        omega
      · intro c hc
        rw [List.mem_append] at hc
        rcases hc with hc | hc
        · exact ih2 c hc
        · simp only [List.mem_singleton] at hc
          subst hc
          exact digitChar_isDig (Nat.mod_lt _ (by omega))

theorem natToDec_spec (n : Nat) :
    decToNat (natToDec n) = n ∧ (∀ c ∈ natToDec n, isDig c = true) ∧ natToDec n ≠ [] := by
  unfold natToDec
  by_cases h0 : n = 0
  · subst h0
    refine ⟨by decide, by decide, by decide⟩
  · rw [if_neg h0]
    obtain ⟨h1, h2⟩ := natToDecAux_spec n n le_rfl
    refine ⟨h1, h2, ?_⟩
    cases n with
    | zero => exact absurd rfl h0
    | succ m =>
      simp only [natToDecAux, if_neg h0]
      simp

theorem takeDigits_append (ds rest : List Char) (hds : ∀ c ∈ ds, isDig c = true)
    (hrest : noDigitHead rest) : takeDigits (ds ++ rest) = (ds, rest) := by
  induction ds with
  | nil =>
    simp only [List.nil_append]
    cases rest with
    | nil => rfl
    | cons c cs =>
      have h : isDig c = false := hrest
      simp only [takeDigits, h]
      simp
  | cons d ds ih =>
    have hd : isDig d = true := hds d (by simp)
    have ih2 := ih (fun c hc => hds c (List.mem_cons_of_mem _ hc))
    simp [takeDigits, hd, ih2]

theorem hexDigit_roundtrip : ∀ d < 16,
    hexVal (hexDigitChar d) = d ∧ isHexDig (hexDigitChar d) = true := by
  decide

theorem parseHex4_hex4 (n : Nat) (h : n < 0x10000) (rest : List Char) :
    parseHex4 (hex4 n ++ rest) = some (n, rest) := by
  have h1 := hexDigit_roundtrip (n / 4096 % 16) (Nat.mod_lt _ (by omega))
  have h2 := hexDigit_roundtrip (n / 256 % 16) (Nat.mod_lt _ (by omega))
  have h3 := hexDigit_roundtrip (n / 16 % 16) (Nat.mod_lt _ (by omega))
  have h4 := hexDigit_roundtrip (n % 16) (Nat.mod_lt _ (by omega))
  simp only [hex4, List.cons_append, List.nil_append, parseHex4]
  rw [h1.2, h2.2, h3.2, h4.2]
  simp only [Bool.and_self, if_pos]
  rw [h1.1, h2.1, h3.1, h4.1]
  have : n / 4096 % 16 * 4096 + n / 256 % 16 * 256 + n / 16 % 16 * 16 + n % 16 = n := by
    omega
  rw [this]

theorem parseStringBody_simple {k : Nat} {e c2 : Char} {R cs rest : List Char}
    (he : escCharOf e = some c2) (hene : e ≠ 'u')
    (hcont : parseStringBody k R = some (cs, rest)) :
    parseStringBody (k + 1) ('\\' :: e :: R) = some (c2 :: cs, rest) := by
  unfold parseStringBody
  rw [if_neg (by decide), if_pos rfl]
  dsimp only
  rw [if_neg hene, he, hcont]
  rfl

theorem parseStringBody_unicode {k n : Nat} {R cs rest : List Char}
    (hn : n < 0x10000) (hnotsur : ¬(0xd800 ≤ n ∧ n < 0xe000))
    (hcont : parseStringBody k R = some (cs, rest)) :
    parseStringBody (k + 1) ('\\' :: 'u' :: (hex4 n ++ R)) =
      some (Char.ofNat n :: cs, rest) := by
  unfold parseStringBody
  rw [if_neg (by decide), if_pos rfl]
  dsimp only
  rw [if_pos rfl, parseHex4_hex4 n hn R]
  dsimp only
  rw [if_neg (by simp only [Bool.and_eq_true, decide_eq_true_eq]; omega)]
  rw [if_neg (by simp only [Bool.and_eq_true, decide_eq_true_eq]; omega)]
  rw [hcont]
  rfl

theorem parseStringBody_surrogate {k m : Nat} {R cs rest : List Char}
    (hm : m < 0x100000)
    (hcont : parseStringBody k R = some (cs, rest)) :
    parseStringBody (k + 1)
      ('\\' :: 'u' :: (hex4 (0xd800 + m / 0x400) ++
        ('\\' :: 'u' :: (hex4 (0xdc00 + m % 0x400) ++ R)))) =
      some (Char.ofNat (0x10000 + m) :: cs, rest) := by
  have hdiv : m / 0x400 < 0x400 := by omega
  have hmod : m % 0x400 < 0x400 := by omega
  unfold parseStringBody
  rw [if_neg (by decide), if_pos rfl]
  dsimp only
  rw [if_pos rfl, parseHex4_hex4 (0xd800 + m / 0x400) (by omega)]
  dsimp only
  rw [if_pos (by simp only [Bool.and_eq_true, decide_eq_true_eq]; omega)]
  rw [if_pos (by decide), parseHex4_hex4 (0xdc00 + m % 0x400) (by omega)]
  dsimp only
  rw [if_pos (by simp only [Bool.and_eq_true, decide_eq_true_eq]; omega)]
  rw [hcont]
  have harith : 0x10000 + (0xd800 + m / 0x400 - 0xd800) * 0x400 +
      (0xdc00 + m % 0x400 - 0xdc00) = 0x10000 + m := by
    omega
  rw [harith]
  rfl

theorem parseStringBody_lit {k : Nat} {c : Char} {R cs rest : List Char}
    (hc1 : c ≠ '"') (hc2 : c ≠ '\\') (hc3 : ¬c.toNat < 0x20)
    (hcont : parseStringBody k R = some (cs, rest)) :
    parseStringBody (k + 1) (c :: R) = some (c :: cs, rest) := by
  unfold parseStringBody
  rw [if_neg hc1, if_neg hc2, if_neg hc3, hcont]
  rfl

theorem parseStringBody_rt (l : List Char) : ∀ fuel, l.length + 1 ≤ fuel → ∀ rest,
    parseStringBody fuel ((l.map escapeChar).flatten ++ '"' :: rest) = some (l, rest) := by
  induction l with
  | nil =>
    intro fuel hf rest
    cases fuel with
    | zero => omega
    | succ k =>
      simp only [List.map_nil, List.flatten_nil, List.nil_append]
      unfold parseStringBody
      rw [if_pos rfl]
  | cons c cs ih =>
    intro fuel hf rest
    cases fuel with
    | zero => simp at hf
    | succ k =>
      have hk : cs.length + 1 ≤ k := by
        simp only [List.length_cons] at hf
        omega
      have ihk := ih k hk rest
      simp only [List.map_cons, List.flatten_cons, List.append_assoc]
      have hvalid := char_toNat_lt c
      have hnotsur := char_not_surrogate c
      unfold escapeChar
      by_cases h1 : c = '"'
      · rw [if_pos h1]
        subst h1
        exact parseStringBody_simple (by decide) (by decide) ihk
      · rw [if_neg h1]
        by_cases h2 : c = '\\'
        · rw [if_pos h2]
          subst h2
          exact parseStringBody_simple (by decide) (by decide) ihk
        · rw [if_neg h2]
          by_cases h3 : c = '\n'
          · rw [if_pos h3]
            subst h3
            exact parseStringBody_simple (by decide) (by decide) ihk
          · rw [if_neg h3]
            by_cases h4 : c = '\t'
            · rw [if_pos h4]
              subst h4
              exact parseStringBody_simple (by decide) (by decide) ihk
            · rw [if_neg h4]
              by_cases h5 : c = '\r'
              · rw [if_pos h5]
                subst h5
                exact parseStringBody_simple (by decide) (by decide) ihk
              · rw [if_neg h5]
                by_cases h6 : c.toNat = 8
                · rw [if_pos h6]
                  have hc : c = Char.ofNat 8 := by
                    rw [← h6, Char.ofNat_toNat]
                  rw [hc]
                  exact parseStringBody_simple (by decide) (by decide) ihk
                · rw [if_neg h6]
                  by_cases h7 : c.toNat = 12
                  · rw [if_pos h7]
                    have hc : c = Char.ofNat 12 := by
                      rw [← h7, Char.ofNat_toNat]
                    rw [hc]
                    exact parseStringBody_simple (by decide) (by decide) ihk
                  · rw [if_neg h7]
                    by_cases h8 : c.toNat < 0x20
                    · rw [if_pos h8]
                      have := parseStringBody_unicode (n := c.toNat) (by omega)
                        (by omega) ihk
                      rw [Char.ofNat_toNat] at this
                      exact this
                    · rw [if_neg h8]
                      by_cases h9 : c.toNat < 0x7f
                      · rw [if_pos h9]
                        exact parseStringBody_lit h1 h2 h8 ihk
                      · rw [if_neg h9]
                        by_cases h10 : c.toNat < 0x10000
                        · rw [if_pos h10]
                          have := parseStringBody_unicode (n := c.toNat) h10
                            hnotsur ihk
                          rw [Char.ofNat_toNat] at this
                          exact this
                        · rw [if_neg h10]
                          have hm : c.toNat - 0x10000 < 0x100000 := by omega
                          have := parseStringBody_surrogate hm ihk
                          have he : 0x10000 + (c.toNat - 0x10000) = c.toNat := by omega
                          rw [he, Char.ofNat_toNat] at this
                          simpa using this

theorem isDig_ne_lit {c : Char} (h : isDig c = true) (d : Char)
    (hd : isDig d = false) : c ≠ d := by
  intro he
  rw [he, hd] at h
  exact absurd h (by simp)

theorem escapeChar_ne_nil (c : Char) : escapeChar c ≠ [] := by
  unfold escapeChar
  dsimp only
  repeat' split
  all_goals exact List.cons_ne_nil _ _

theorem length_le_flatten_escape (l : List Char) :
    l.length ≤ ((l.map escapeChar).flatten).length := by
  induction l with
  | nil => simp
  | cons c cs ih =>
    simp only [List.map_cons, List.flatten_cons, List.length_append, List.length_cons]
    have h1 : 1 ≤ (escapeChar c).length :=
      List.length_pos.mpr (escapeChar_ne_nil c)
    omega

theorem dumpJ_head (v : JValue) :
    ∃ h t, dumpJ v = h :: t ∧ h ≠ ']' ∧ h ≠ '\x7d' ∧ h ≠ ' ' := by
  cases v with
  | obj fs => exact ⟨'\x7b', _, rfl, by decide⟩
  | arr xs => exact ⟨'[', _, rfl, by decide⟩
  | str s => exact ⟨'"', _, rfl, by decide⟩
  | num n =>
    show ∃ h t, dumpInt n = h :: t ∧ _
    unfold dumpInt
    by_cases hneg : n < 0
    · rw [if_pos hneg]
      exact ⟨'-', _, rfl, by decide⟩
    · rw [if_neg hneg]
      obtain ⟨h1, h2, h3⟩ := natToDec_spec n.toNat
      obtain ⟨d, ds, hds⟩ := List.exists_cons_of_ne_nil h3
      have hd : isDig d = true := h2 d (by rw [hds]; exact List.mem_cons_self d ds)
      exact ⟨d, ds, hds, isDig_ne_lit hd _ (by decide),
        isDig_ne_lit hd _ (by decide), isDig_ne_lit hd _ (by decide)⟩
  | bool b =>
    cases b with
    | false => exact ⟨'f', _, rfl, by decide⟩
    | true => exact ⟨'t', _, rfl, by decide⟩
  | null => exact ⟨'n', _, rfl, by decide⟩

theorem parseValue_num (n : Int) (fuel : Nat) (rest : List Char)
    (hrest : noDigitHead rest) :
    parseValue (fuel + 1) (dumpInt n ++ rest) = some (.num n, rest) := by
  unfold dumpInt
  by_cases hneg : n < 0
  · rw [if_pos hneg]
    obtain ⟨h1, h2, h3⟩ := natToDec_spec n.natAbs
    simp only [List.cons_append]
    unfold parseValue
    rw [if_neg (by decide), if_neg (by decide), if_neg (by decide), if_neg (by decide),
      if_neg (by decide), if_neg (by decide), if_pos rfl]
    dsimp only
    rw [takeDigits_append _ _ h2 hrest]
    dsimp only
    rw [if_neg (by simpa using h3)]
    rw [h1]
    have he : -(n.natAbs : Int) = n := by omega
    rw [he]
  · rw [if_neg hneg]
    obtain ⟨h1, h2, h3⟩ := natToDec_spec n.toNat
    obtain ⟨d, ds, hds⟩ := List.exists_cons_of_ne_nil h3
    have hd : isDig d = true := h2 d (by rw [hds]; exact List.mem_cons_self d ds)
    rw [hds]
    simp only [List.cons_append]
    unfold parseValue
    rw [if_neg (isDig_ne_lit hd _ (by decide)), if_neg (isDig_ne_lit hd _ (by decide)),
      if_neg (isDig_ne_lit hd _ (by decide)), if_neg (isDig_ne_lit hd _ (by decide)),
      if_neg (isDig_ne_lit hd _ (by decide)), if_neg (isDig_ne_lit hd _ (by decide)),
      if_neg (isDig_ne_lit hd _ (by decide)), if_pos hd]
    have htd : takeDigits ((d :: ds) ++ rest) = (d :: ds, rest) :=
      takeDigits_append _ _ (by rw [hds] at h2; exact h2) hrest
    simp only [List.cons_append] at htd
    dsimp only
    rw [htd]
    dsimp only
    rw [← hds, h1]
    have he : (n.toNat : Int) = n := by omega
    rw [he]

theorem sizeJ_pos (v : JValue) : 1 ≤ sizeJ v := by
  cases v <;> simp [sizeJ]

theorem parseValue_arr_go (fuel : Nat) (d : Char) (t : List Char) (hd : d ≠ ']') :
    parseValue (fuel + 1) ('[' :: d :: t) =
      (parseItems fuel (d :: t)).map (fun p => (.arr p.1, p.2)) := by
  unfold parseValue
  rw [if_neg (by decide), if_neg (by decide), if_neg (by decide), if_neg (by decide),
    if_pos rfl]
  dsimp only
  rw [if_neg hd]

theorem parseValue_obj_go (fuel : Nat) (d : Char) (t : List Char) (hd : d ≠ '\x7d') :
    parseValue (fuel + 1) ('\x7b' :: d :: t) =
      (parseFields fuel (d :: t)).map (fun p => (.obj p.1, p.2)) := by
  unfold parseValue
  rw [if_neg (by decide), if_neg (by decide), if_neg (by decide), if_neg (by decide),
    if_neg (by decide), if_pos rfl]
  dsimp only
  rw [if_neg hd]

theorem skipSpaces_cons_of_ne (h : Char) (t : List Char) (hh : h ≠ ' ') :
    skipSpaces (h :: t) = h :: t := by
  unfold skipSpaces
  rw [List.dropWhile_cons_of_neg (by simpa using hh)]

theorem noDigitHead_cons {c : Char} {t : List Char} (h : isDig c = false) :
    noDigitHead (c :: t) := h

theorem dumpItems_eq (x : JValue) (xs : List JValue) :
    ∃ T, dumpItems (x :: xs) = dumpJ x ++ T := by
  cases xs with
  | nil => exact ⟨[], by simp [dumpItems]⟩
  | cons y ys => exact ⟨',' :: ' ' :: dumpItems (y :: ys), by simp [dumpItems]⟩

theorem dumpItems_cons_decomp (x : JValue) (xs : List JValue) (tail : List Char) :
    ∃ h t, dumpItems (x :: xs) ++ tail = h :: t ∧ h ≠ ']' ∧ h ≠ '\x7d' ∧ h ≠ ' ' := by
  obtain ⟨T, hT⟩ := dumpItems_eq x xs
  obtain ⟨h, t, hht, h1, h2, h3⟩ := dumpJ_head x
  exact ⟨h, t ++ T ++ tail, by rw [hT, hht]; simp [List.append_assoc], h1, h2, h3⟩

theorem dumpFields_eq (k : String) (v : JValue) (fs : List (String × JValue)) :
    ∃ T, dumpFields ((k, v) :: fs) =
      dumpString k ++ ':' :: ' ' :: dumpJ v ++ T := by
  cases fs with
  | nil => exact ⟨[], by simp [dumpFields]⟩
  | cons g gs =>
    exact ⟨',' :: ' ' :: dumpFields (g :: gs), by
      obtain ⟨k2, v2⟩ := g
      simp [dumpFields]⟩

theorem dumpFields_cons_decomp (k : String) (v : JValue)
    (fs : List (String × JValue)) (tail : List Char) :
    ∃ t, dumpFields ((k, v) :: fs) ++ tail = '"' :: t := by
  obtain ⟨T, hT⟩ := dumpFields_eq k v fs
  refine ⟨(k.data.map escapeChar).flatten ++ ['"'] ++ ':' :: ' ' :: dumpJ v ++ T ++ tail, ?_⟩
  rw [hT]
  unfold dumpString
  simp [List.append_assoc]

theorem roundtrip_main : ∀ N : Nat,
    (∀ v : JValue, sizeJ v ≤ N → ∀ fuel, sizeJ v ≤ fuel → ∀ rest, noDigitHead rest →
      parseValue fuel (dumpJ v ++ rest) = some (v, rest)) ∧
    (∀ x : JValue, ∀ xs : List JValue, sizeItems (x :: xs) ≤ N →
      ∀ fuel, sizeItems (x :: xs) ≤ fuel → ∀ rest,
      parseItems fuel (dumpItems (x :: xs) ++ ']' :: rest) = some (x :: xs, rest)) ∧
    (∀ k : String, ∀ v : JValue, ∀ fs : List (String × JValue),
      sizeFields ((k, v) :: fs) ≤ N →
      ∀ fuel, sizeFields ((k, v) :: fs) ≤ fuel → ∀ rest,
      parseFields fuel (dumpFields ((k, v) :: fs) ++ '\x7d' :: rest) =
        some ((k, v) :: fs, rest)) := by
  intro N
  induction N with
  | zero =>
    refine ⟨?_, ?_, ?_⟩
    · intro v hv
      have := sizeJ_pos v
      omega
    · intro x xs h
      have := sizeJ_pos x
      simp only [sizeItems] at h
      omega
    · intro k v fs h
      have := sizeJ_pos v
      simp only [sizeFields] at h
      omega
  | succ N ih =>
    obtain ⟨ihV, ihI, ihF⟩ := ih
    refine ⟨?_, ?_, ?_⟩
    · -- value component
      intro v hv fuel hfuel rest hrest
      cases fuel with
      | zero =>
        have := sizeJ_pos v
        omega
      | succ f =>
        cases v with
        | null =>
          show parseValue (f + 1) (['n', 'u', 'l', 'l'] ++ rest) = _
          simp only [List.cons_append, List.nil_append]
          unfold parseValue
          rw [if_pos rfl]
          dsimp only
          rw [if_pos (by decide)]
        | bool b =>
          cases b with
          | false =>
            show parseValue (f + 1) (['f', 'a', 'l', 's', 'e'] ++ rest) = _
            simp only [List.cons_append, List.nil_append]
            unfold parseValue
            rw [if_neg (by decide), if_neg (by decide), if_pos rfl]
            dsimp only
            rw [if_pos (by decide)]
          | true =>
            show parseValue (f + 1) (['t', 'r', 'u', 'e'] ++ rest) = _
            simp only [List.cons_append, List.nil_append]
            unfold parseValue
            rw [if_neg (by decide), if_pos rfl]
            dsimp only
            rw [if_pos (by decide)]
        | num n => exact parseValue_num n f rest hrest
        | str s =>
          show parseValue (f + 1) (dumpString s ++ rest) = _
          unfold dumpString
          simp only [List.cons_append, List.append_assoc, List.cons_append,
            List.nil_append]
          unfold parseValue
          rw [if_neg (by decide), if_neg (by decide), if_neg (by decide), if_pos rfl]
          have hlen : s.data.length + 1 ≤
              ((s.data.map escapeChar).flatten ++ '"' :: rest).length + 1 := by
            have := length_le_flatten_escape s.data
            simp only [List.length_append, List.length_cons]
            omega
          rw [parseStringBody_rt s.data _ hlen rest]
          rfl
        | arr xs =>
          cases xs with
          | nil =>
            show parseValue (f + 1) (('[' :: (dumpItems [] ++ [']'])) ++ rest) = _
            simp only [dumpItems, List.nil_append, List.cons_append]
            unfold parseValue
            rw [if_neg (by decide), if_neg (by decide), if_neg (by decide),
              if_neg (by decide), if_pos rfl]
            dsimp only
            rw [if_pos rfl]
          | cons x xs =>
            have hexp : dumpJ (.arr (x :: xs)) ++ rest =
                '[' :: (dumpItems (x :: xs) ++ ']' :: rest) := by
              show ('[' :: (dumpItems (x :: xs) ++ [']'])) ++ rest = _
              simp [List.append_assoc]
            rw [hexp]
            obtain ⟨h, t, hht, hne1, _, _⟩ :=
              dumpItems_cons_decomp x xs (']' :: rest)
            rw [hht, parseValue_arr_go f h t hne1, ← hht]
            have hsz : sizeItems (x :: xs) ≤ N := by
              simp only [sizeJ] at hv
              omega
            have hfz : sizeItems (x :: xs) ≤ f := by
              simp only [sizeJ] at hfuel
              omega
            rw [ihI x xs hsz f hfz rest]
            rfl
        | obj fs =>
          cases fs with
          | nil =>
            show parseValue (f + 1) (('\x7b' :: (dumpFields [] ++ ['\x7d'])) ++ rest) = _
            simp only [dumpFields, List.nil_append, List.cons_append]
            unfold parseValue
            rw [if_neg (by decide), if_neg (by decide), if_neg (by decide),
              if_neg (by decide), if_neg (by decide), if_pos rfl]
            dsimp only
            rw [if_pos rfl]
          | cons g fs =>
            obtain ⟨k, v⟩ := g
            have hexp : dumpJ (.obj ((k, v) :: fs)) ++ rest =
                '\x7b' :: (dumpFields ((k, v) :: fs) ++ '\x7d' :: rest) := by
              show ('\x7b' :: (dumpFields ((k, v) :: fs) ++ ['\x7d'])) ++ rest = _
              simp [List.append_assoc]
            rw [hexp]
            obtain ⟨t, hht⟩ := dumpFields_cons_decomp k v fs ('\x7d' :: rest)
            rw [hht, parseValue_obj_go f '"' t (by decide), ← hht]
            have hsz : sizeFields ((k, v) :: fs) ≤ N := by
              simp only [sizeJ] at hv
              omega
            have hfz : sizeFields ((k, v) :: fs) ≤ f := by
              simp only [sizeJ] at hfuel
              omega
            rw [ihF k v fs hsz f hfz rest]
            rfl
    · -- items component
      intro x xs hsz fuel hfuel rest
      cases fuel with
      | zero =>
        have := sizeJ_pos x
        simp only [sizeItems] at hfuel
        omega
      | succ f =>
        have hszx : sizeJ x ≤ N := by
          simp only [sizeItems] at hsz
          omega
        have hfx : sizeJ x ≤ f := by
          simp only [sizeItems] at hfuel
          omega
        cases xs with
        | nil =>
          show parseItems (f + 1) (dumpJ x ++ ']' :: rest) = some ([x], rest)
          unfold parseItems
          rw [ihV x hszx f hfx (']' :: rest) (noDigitHead_cons (by decide))]
          dsimp only
          rw [if_pos rfl]
        | cons y ys =>
          show parseItems (f + 1)
              ((dumpJ x ++ ',' :: ' ' :: dumpItems (y :: ys)) ++ ']' :: rest) = _
          have hre : (dumpJ x ++ ',' :: ' ' :: dumpItems (y :: ys)) ++ ']' :: rest =
              dumpJ x ++ ',' :: ' ' :: (dumpItems (y :: ys) ++ ']' :: rest) := by
            simp [List.append_assoc]
          rw [hre]
          unfold parseItems
          rw [ihV x hszx f hfx _ (noDigitHead_cons (by decide))]
          dsimp only
          rw [if_neg (by decide), if_pos rfl]
          have hskip : skipSpaces (' ' :: (dumpItems (y :: ys) ++ ']' :: rest)) =
              dumpItems (y :: ys) ++ ']' :: rest := by
            unfold skipSpaces
            rw [List.dropWhile_cons_of_pos (by decide)]
            obtain ⟨h, t, hht, _, _, hne3⟩ :=
              dumpItems_cons_decomp y ys (']' :: rest)
            rw [hht]
            exact List.dropWhile_cons_of_neg (by simpa using hne3)
          rw [hskip]
          have hszr : sizeItems (y :: ys) ≤ N := by
            have := sizeJ_pos x
            simp only [sizeItems] at hsz ⊢
            omega
          have hfr : sizeItems (y :: ys) ≤ f := by
            have := sizeJ_pos x
            simp only [sizeItems] at hfuel ⊢
            omega
          rw [ihI y ys hszr f hfr rest]
    · -- fields component
      intro k v fs hsz fuel hfuel rest
      cases fuel with
      | zero =>
        have := sizeJ_pos v
        simp only [sizeFields] at hfuel
        omega
      | succ f =>
        have hszv : sizeJ v ≤ N := by
          simp only [sizeFields] at hsz
          omega
        have hfv : sizeJ v ≤ f := by
          simp only [sizeFields] at hfuel
          omega
        have hskipv : ∀ L : List Char, skipSpaces (' ' :: (dumpJ v ++ L)) =
            dumpJ v ++ L := by
          intro L
          unfold skipSpaces
          rw [List.dropWhile_cons_of_pos (by decide)]
          obtain ⟨h, t, hht, _, _, hne3⟩ := dumpJ_head v
          rw [hht]
          simp only [List.cons_append]
          exact List.dropWhile_cons_of_neg (by simpa using hne3)
        cases fs with
        | nil =>
          show parseFields (f + 1)
              ((dumpString k ++ ':' :: ' ' :: dumpJ v) ++ '\x7d' :: rest) = _
          have hre : (dumpString k ++ ':' :: ' ' :: dumpJ v) ++ '\x7d' :: rest =
              '"' :: ((k.data.map escapeChar).flatten ++
                '"' :: (':' :: ' ' :: (dumpJ v ++ '\x7d' :: rest))) := by
            unfold dumpString
            simp [List.append_assoc]
          rw [hre]
          unfold parseFields
          dsimp only
          rw [if_pos rfl]
          have hlen : k.data.length + 1 ≤
              ((k.data.map escapeChar).flatten ++
                '"' :: (':' :: ' ' :: (dumpJ v ++ '\x7d' :: rest))).length + 1 := by
            have := length_le_flatten_escape k.data
            simp only [List.length_append, List.length_cons]
            omega
          rw [parseStringBody_rt k.data _ hlen _]
          dsimp only
          rw [if_pos rfl, hskipv ('\x7d' :: rest)]
          rw [ihV v hszv f hfv ('\x7d' :: rest) (noDigitHead_cons (by decide))]
          dsimp only
          rw [if_pos rfl]
        | cons g gs =>
          obtain ⟨k2, v2⟩ := g
          show parseFields (f + 1)
              ((dumpString k ++ ':' :: ' ' :: dumpJ v ++
                ',' :: ' ' :: dumpFields ((k2, v2) :: gs)) ++ '\x7d' :: rest) = _
          have hre : (dumpString k ++ ':' :: ' ' :: dumpJ v ++
                ',' :: ' ' :: dumpFields ((k2, v2) :: gs)) ++ '\x7d' :: rest =
              '"' :: ((k.data.map escapeChar).flatten ++
                '"' :: (':' :: ' ' :: (dumpJ v ++
                  ',' :: ' ' :: (dumpFields ((k2, v2) :: gs) ++ '\x7d' :: rest)))) := by
            unfold dumpString
            simp [List.append_assoc]
          rw [hre]
          unfold parseFields
          dsimp only
          rw [if_pos rfl]
          have hlen : k.data.length + 1 ≤
              ((k.data.map escapeChar).flatten ++
                '"' :: (':' :: ' ' :: (dumpJ v ++
                  ',' :: ' ' :: (dumpFields ((k2, v2) :: gs) ++
                    '\x7d' :: rest)))).length + 1 := by
            have := length_le_flatten_escape k.data
            simp only [List.length_append, List.length_cons]
            omega
          rw [parseStringBody_rt k.data _ hlen _]
          dsimp only
          rw [if_pos rfl,
            hskipv (',' :: ' ' :: (dumpFields ((k2, v2) :: gs) ++ '\x7d' :: rest))]
          rw [ihV v hszv f hfv _ (noDigitHead_cons (by decide))]
          dsimp only
          rw [if_neg (by decide), if_pos rfl]
          have hskip2 : skipSpaces
              (' ' :: (dumpFields ((k2, v2) :: gs) ++ '\x7d' :: rest)) =
              dumpFields ((k2, v2) :: gs) ++ '\x7d' :: rest := by
            unfold skipSpaces
            rw [List.dropWhile_cons_of_pos (by decide)]
            obtain ⟨t, hht⟩ := dumpFields_cons_decomp k2 v2 gs ('\x7d' :: rest)
            rw [hht]
            exact List.dropWhile_cons_of_neg (by decide)
          rw [hskip2]
          have hszr : sizeFields ((k2, v2) :: gs) ≤ N := by
            have := sizeJ_pos v
            simp only [sizeFields] at hsz ⊢
            omega
          have hfr : sizeFields ((k2, v2) :: gs) ≤ f := by
            have := sizeJ_pos v
            simp only [sizeFields] at hfuel ⊢
            omega
          rw [ihF k2 v2 gs hszr f hfr rest]

theorem dumpJ_length_pos (v : JValue) : 1 ≤ (dumpJ v).length := by
  obtain ⟨h, t, hht, -, -, -⟩ := dumpJ_head v
  rw [hht]
  simp

theorem size_bound : ∀ N : Nat,
    (∀ v : JValue, sizeJ v ≤ N → sizeJ v + 1 ≤ 2 * (dumpJ v).length) ∧
    (∀ xs : List JValue, sizeItems xs ≤ N →
      sizeItems xs ≤ 2 * (dumpItems xs).length + 2) ∧
    (∀ fs : List (String × JValue), sizeFields fs ≤ N →
      sizeFields fs ≤ 2 * (dumpFields fs).length + 2) := by
  intro N
  induction N with
  | zero =>
    refine ⟨?_, ?_, ?_⟩
    · intro v hv
      have := sizeJ_pos v
      omega
    · intro xs h
      cases xs with
      | nil => simp [sizeItems] at h
      | cons x xs =>
        have := sizeJ_pos x
        simp only [sizeItems] at h
        omega
    · intro fs h
      cases fs with
      | nil => simp [sizeFields] at h
      | cons g gs =>
        obtain ⟨k, v⟩ := g
        have := sizeJ_pos v
        simp only [sizeFields] at h
        omega
  | succ N ih =>
    obtain ⟨ihV, ihI, ihF⟩ := ih
    refine ⟨?_, ?_, ?_⟩
    · intro v hv
      cases v with
      | null => simp [sizeJ, dumpJ]
      | bool b => cases b <;> simp [sizeJ, dumpJ]
      | num n =>
        have := dumpJ_length_pos (.num n)
        simp only [sizeJ]
        omega
      | str s =>
        show sizeJ (.str s) + 1 ≤ 2 * (dumpString s).length
        unfold dumpString
        simp only [sizeJ, List.length_cons, List.length_append, List.length_cons]
        omega
      | arr xs =>
        have hsub : sizeItems xs ≤ N := by
          simp only [sizeJ] at hv
          omega
        have := ihI xs hsub
        show 1 + sizeItems xs + 1 ≤ 2 * ('[' :: (dumpItems xs ++ [']'])).length
        simp only [List.length_cons, List.length_append, List.length_singleton]
        omega
      | obj fs =>
        have hsub : sizeFields fs ≤ N := by
          simp only [sizeJ] at hv
          omega
        have := ihF fs hsub
        show 1 + sizeFields fs + 1 ≤ 2 * ('\x7b' :: (dumpFields fs ++ ['\x7d'])).length
        simp only [List.length_cons, List.length_append, List.length_singleton]
        omega
    · intro xs hxs
      cases xs with
      | nil => simp [sizeItems, dumpItems]
      | cons x xs =>
        have hx : sizeJ x ≤ N := by
          simp only [sizeItems] at hxs
          omega
        have h1 := ihV x hx
        cases xs with
        | nil =>
          show sizeJ x + 1 + sizeItems [] ≤ 2 * (dumpJ x).length + 2
          simp only [sizeItems]
          omega
        | cons y ys =>
          have hsub : sizeItems (y :: ys) ≤ N := by
            have := sizeJ_pos x
            simp only [sizeItems] at hxs ⊢
            omega
          have h2 := ihI (y :: ys) hsub
          show sizeJ x + 1 + sizeItems (y :: ys) ≤
            2 * (dumpJ x ++ ',' :: ' ' :: dumpItems (y :: ys)).length + 2
          simp only [List.length_append, List.length_cons]
          omega
    · intro fs hfs
      cases fs with
      | nil => simp [sizeFields, dumpFields]
      | cons g gs =>
        obtain ⟨k, v⟩ := g
        have hv : sizeJ v ≤ N := by
          simp only [sizeFields] at hfs
          omega
        have h1 := ihV v hv
        cases gs with
        | nil =>
          show sizeJ v + 1 + sizeFields [] ≤
            2 * (dumpString k ++ ':' :: ' ' :: dumpJ v).length + 2
          simp only [sizeFields, List.length_append, List.length_cons]
          omega
        | cons g2 gs2 =>
          obtain ⟨k2, v2⟩ := g2
          have hsub : sizeFields ((k2, v2) :: gs2) ≤ N := by
            have := sizeJ_pos v
            simp only [sizeFields] at hfs ⊢
            omega
          have h2 := ihF ((k2, v2) :: gs2) hsub
          show sizeJ v + 1 + sizeFields ((k2, v2) :: gs2) ≤
            2 * (dumpString k ++ ':' :: ' ' :: dumpJ v ++
              ',' :: ' ' :: dumpFields ((k2, v2) :: gs2)).length + 2
          simp only [List.length_append, List.length_cons]
          omega

/-- Round trip of the JSON layer: parsing the dump of any value returns
the value, with the whole input consumed. -/
theorem jsonLoads_dumps (v : JValue) : jsonLoads (jsonDumps v) = some v := by
  unfold jsonLoads jsonDumps
  have hb := (size_bound (sizeJ v)).1 v le_rfl
  have hfuel : sizeJ v ≤ 2 * (dumpJ v).length + 1 := by omega
  have h := (roundtrip_main (sizeJ v)).1 v le_rfl
    (2 * (dumpJ v).length + 1) hfuel [] trivial
  rw [List.append_nil] at h
  show (match parseValue (2 * (dumpJ v).length + 1) (dumpJ v) with
    | some (w, []) => some w
    | _ => none) = some v
  rw [h]

/-- **C3.** For every JSON-serializable structured secret `S` (maps of
scalars, lists and maps, with the distinct-key property every Python
dict has) and a Fernet cipher satisfying its round-trip contract,
`decrypt_dict (encrypt_dict S) = S` exactly. -/
theorem C3_decrypt_encrypt_roundtrip (c : Cipher) (hc : c.RoundTrips)
    (S : JValue) (_hwf : WF S) :
    decrypt_dict c (encrypt_dict c S) = some S := by
  unfold decrypt_dict encrypt_dict
  rw [hc (jsonDumps S)]
  exact jsonLoads_dumps S

/-- Witness for C3 at a concrete cipher and secret. -/
theorem C3_decrypt_encrypt_roundtrip_witness :
    exCipher.RoundTrips ∧ WF exSecret ∧
    decrypt_dict exCipher (encrypt_dict exCipher exSecret) = some exSecret := by
  have hc : exCipher.RoundTrips := fun s => rfl
  have hwf : WF exSecret := by
    refine ⟨by decide, ?_⟩
    exact ⟨trivial, trivial, trivial, trivial, ⟨trivial, trivial, trivial⟩, trivial⟩
  exact ⟨hc, hwf, C3_decrypt_encrypt_roundtrip exCipher hc exSecret hwf⟩

/-- **C4.** Whenever the Fernet layer rejects a ciphertext as
unauthentic (`InvalidToken` on a tampered blob or a blob from another
key), `decrypt_dict` propagates the failure — it re-raises instead of
catching, and never returns any partial or garbage value. -/
theorem C4_decrypt_fails_closed (c : Cipher) (blob : String)
    (hauth : c.dec blob = none) : decrypt_dict c blob = none := by
  unfold decrypt_dict
  rw [hauth]

/-- Witness for C4 at a concrete cipher and blob. -/
theorem C4_decrypt_fails_closed_witness :
    rejectCipher.dec "gAAAAABtampered" = none ∧
    decrypt_dict rejectCipher "gAAAAABtampered" = none :=
  ⟨rfl, C4_decrypt_fails_closed rejectCipher "gAAAAABtampered" rfl⟩

end Crypto

namespace Setup

set_option maxRecDepth 400000 in
/-- **C5 is false as stated**: for the concrete single-shot payload
`exEvilPayload` (valid key, SSL skipped, SQLite path `/etc/evil.db`
outside both allowed roots) the call fails on path validation, yet the
combined `.env` update was already written: the admin username (among
the rest of the configuration) is persisted.  Step flags stay unflipped
and `is_complete` stays false, but "nothing is persisted" is violated. -/
theorem C5_counterexample :
    (complete_setup exExt exDataDir exCwd exEvilPayload exFresh).ok = false ∧
    validate_db_path exDataDir exCwd exEvilPayload.db_path = none ∧
    (complete_setup exExt exDataDir exCwd exEvilPayload exFresh).state.env ≠ exFresh.env ∧
    lookup_env (complete_setup exExt exDataDir exCwd exEvilPayload exFresh).state.env
      "PARSEDMARC_GUI_USERNAME" = some "admin" := by
  decide

theorem complete_setup_ok_or_status (ext : Ext) (dataDir cwd : List String)
    (pay : CompleteSetup) (st : SetupState) :
    (complete_setup ext dataDir cwd pay st).ok = true ∨
    (complete_setup ext dataDir cwd pay st).state.status = st.status := by
  unfold complete_setup
  dsimp only
  by_cases hk : ext.fernetKeyOk (pay.encryption_key.getD ext.generatedKey) = true
  · rw [if_neg (by simp [hk])]
    cases h1 : complete_ssl_fail ext pay with
    | some e => right; rfl
    | none =>
      cases h2 : complete_env_updates ext pay (pay.encryption_key.getD ext.generatedKey) with
      | none =>
        right
        by_cases hssl : (pay.ssl_type = "self-signed" || pay.ssl_type = "letsencrypt") = true
        · rw [if_pos hssl]
        · rw [if_neg hssl]
      | some updates =>
        cases h3 : complete_db_path_check dataDir cwd pay with
        | error e =>
          right
          by_cases hssl : (pay.ssl_type = "self-signed" || pay.ssl_type = "letsencrypt") = true
          · rw [if_pos hssl]
          · rw [if_neg hssl]
        | ok u => left; rfl
  · rw [if_pos (by simp [hk])]
    right
    rfl

theorem complete_setup_bad_key (ext : Ext) (dataDir cwd : List String)
    (pay : CompleteSetup) (st : SetupState)
    (hk : ext.fernetKeyOk (pay.encryption_key.getD ext.generatedKey) = false) :
    complete_setup ext dataDir cwd pay st =
      ⟨.error (.badRequest "Invalid encryption key format"), st⟩ := by
  unfold complete_setup
  rw [if_pos (by simp [hk])]

set_option maxHeartbeats 1000000 in
/-- **C5 (amended).** `complete_setup` never flips a step flag or
`is_complete` on any failure, and failures of the encryption-key format
check or of the Let's Encrypt stage persist nothing at all.  The
restriction to those two failure stages is forced by the code: for a
SQLite payload the database-path validation runs only after the
combined `.env` update has been written, so that validation failure
leaves the new configuration persisted (see the counterexample). -/
theorem C5_complete_setup_amended (ext : Ext) (dataDir cwd : List String)
    (pay : CompleteSetup) (st : SetupState) :
    ((complete_setup ext dataDir cwd pay st).ok = false →
      (complete_setup ext dataDir cwd pay st).state.status = st.status) ∧
    (ext.fernetKeyOk (pay.encryption_key.getD ext.generatedKey) = false →
      (complete_setup ext dataDir cwd pay st).ok = false ∧
      (complete_setup ext dataDir cwd pay st).state = st) ∧
    (pay.ssl_type = "letsencrypt" →
      pay.ssl_domain = none ∨ pay.ssl_email = none ∨ ext.acmeSuccess = false →
      (complete_setup ext dataDir cwd pay st).ok = false ∧
      (complete_setup ext dataDir cwd pay st).state = st) := by
  refine ⟨?_, ?_, ?_⟩
  · intro hfail
    rcases complete_setup_ok_or_status ext dataDir cwd pay st with h | h
    · rw [hfail] at h
      exact absurd h (by simp)
    · exact h
  · intro hk
    rw [complete_setup_bad_key ext dataDir cwd pay st hk]
    exact ⟨rfl, rfl⟩
  · intro hle hfail
    by_cases hk : ext.fernetKeyOk (pay.encryption_key.getD ext.generatedKey) = true
    · have hsome : ∃ e, complete_ssl_fail ext pay = some e := by
        unfold complete_ssl_fail
        rw [if_pos hle]
        by_cases hde : (pay.ssl_domain = none || pay.ssl_email = none) = true
        · rw [if_pos hde]
          exact ⟨_, rfl⟩
        · rw [if_neg hde]
          have hac : ext.acmeSuccess = false := by
            rcases hfail with h | h | h
            · simp [h] at hde
            · simp [h] at hde
            · exact h
          rw [if_pos (by simp [hac])]
          exact ⟨_, rfl⟩
      obtain ⟨e, he⟩ := hsome
      unfold complete_setup
      dsimp only
      rw [if_neg (by simp [hk]), he]
      exact ⟨rfl, rfl⟩
    · rw [complete_setup_bad_key ext dataDir cwd pay st (by simpa using hk)]
      exact ⟨rfl, rfl⟩

set_option maxRecDepth 400000 in
/-- Witness for the amended C5: a concrete key-format failure and a
concrete Let's Encrypt failure, both persisting nothing. -/
theorem C5_complete_setup_amended_witness :
    ((complete_setup exExt exDataDir exCwd exBadKeyPayload exFresh).ok = false ∧
      (complete_setup exExt exDataDir exCwd exBadKeyPayload exFresh).state = exFresh) ∧
    ((complete_setup exExt exDataDir exCwd exLEPayload exFresh).ok = false ∧
      (complete_setup exExt exDataDir exCwd exLEPayload exFresh).state = exFresh) := by
  refine ⟨?_, ?_⟩
  · exact (C5_complete_setup_amended exExt exDataDir exCwd
      exBadKeyPayload exFresh).2.1 (by decide)
  · exact (C5_complete_setup_amended exExt exDataDir exCwd
      exLEPayload exFresh).2.2 rfl (Or.inr (Or.inr rfl))

set_option maxRecDepth 400000 in
/-- **C6 is false as stated**: with setup already complete (`exDone`),
the single-shot `complete_setup` endpoint succeeds and re-applies the
configuration — it never calls `_require_setup_incomplete`, unlike the
five individual step endpoints. -/
theorem C6_counterexample :
    exDone.status.is_complete = true ∧
    (complete_setup exExt exDataDir exCwd exPayload exDone).ok = true ∧
    lookup_env (complete_setup exExt exDataDir exCwd exPayload exDone).state.env
      "PARSEDMARC_GUI_USERNAME" = some "admin" := by
  decide

/-- **C6 (amended).** Once `is_complete` is true, each of the five
individual step endpoints (encryption-key, admin-credentials, ssl,
server, database) fails with the 403 "Setup is already complete" error
and changes nothing; the single-shot complete endpoint is NOT guarded
(see the counterexample). -/
theorem C6_steps_locked_amended (ext : Ext) (st : SetupState)
    (h : st.status.is_complete = true) :
    (∀ key_data, (setup_encryption_key ext key_data st).ok = false ∧
      (setup_encryption_key ext key_data st).state = st) ∧
    (∀ u p, (setup_admin_credentials ext u p st).ok = false ∧
      (setup_admin_credentials ext u p st).state = st) ∧
    (∀ cfg, (setup_ssl ext cfg st).ok = false ∧ (setup_ssl ext cfg st).state = st) ∧
    (∀ hs ps cs ls, (setup_server hs ps cs ls st).ok = false ∧
      (setup_server hs ps cs ls st).state = st) ∧
    (∀ dataDir cwd cfg, (setup_database dataDir cwd cfg st).ok = false ∧
      (setup_database dataDir cwd cfg st).state = st) := by
  have hg : require_setup_incomplete st =
      .error (.forbidden "Setup is already complete. Use the settings API to make changes.") := by
    unfold require_setup_incomplete
    rw [if_pos h]
  refine ⟨?_, ?_, ?_, ?_, ?_⟩
  · intro key_data
    unfold setup_encryption_key
    rw [hg]
    exact ⟨rfl, rfl⟩
  · intro u p
    unfold setup_admin_credentials
    rw [hg]
    exact ⟨rfl, rfl⟩
  · intro cfg
    unfold setup_ssl
    rw [hg]
    exact ⟨rfl, rfl⟩
  · intro hs ps cs ls
    unfold setup_server
    rw [hg]
    exact ⟨rfl, rfl⟩
  · intro dataDir cwd cfg
    unfold setup_database
    rw [hg]
    exact ⟨rfl, rfl⟩

/-- Witness for the amended C6 at the concrete completed state. -/
theorem C6_steps_locked_amended_witness :
    (setup_encryption_key exExt none exDone).ok = false ∧
    (setup_encryption_key exExt none exDone).state = exDone ∧
    (setup_database exDataDir exCwd exPgPay exDone).ok = false := by
  have h := C6_steps_locked_amended exExt exDone (by decide)
  exact ⟨(h.1 none).1, (h.1 none).2, (h.2.2.2.2 exDataDir exCwd exPgPay).1⟩

set_option maxRecDepth 400000 in
/-- **C9 is false as stated**: applying the database step with SQLite
and then with PostgreSQL leaves the `PARSEDMARC_DB_PATH` line in the
persisted configuration — the PostgreSQL branch never removes it, so
the SQLite path setting is not cleared. -/
theorem C9_counterexample :
    (setup_database exDataDir exCwd exPgPay
      (setup_database exDataDir exCwd exSqlitePay exFresh).state).ok = true ∧
    lookup_env (setup_database exDataDir exCwd exPgPay
      (setup_database exDataDir exCwd exSqlitePay exFresh).state).state.env
      "PARSEDMARC_DB_PATH" = some "/app/x.db" := by
  decide

set_option maxRecDepth 400000 in
/-- **C9 (amended).** After applying the database step with SQLite and
then with PostgreSQL, the PostgreSQL connection string is written and
is the active one (`effective_database_url` prefers
`PARSEDMARC_DATABASE_URL`), and no other step flag is disturbed — but
the stale `PARSEDMARC_DB_PATH` line remains in the `.env` file; it is
shadowed, not cleared. -/
theorem C9_database_overwrite_amended :
    (setup_database exDataDir exCwd exPgPay
      (setup_database exDataDir exCwd exSqlitePay exFresh).state).ok = true ∧
    lookup_env (setup_database exDataDir exCwd exPgPay
      (setup_database exDataDir exCwd exSqlitePay exFresh).state).state.env
      "PARSEDMARC_DATABASE_URL" = some "postgresql+psycopg2://u:p@h:5432/d" ∧
    effective_database_url (setup_database exDataDir exCwd exPgPay
      (setup_database exDataDir exCwd exSqlitePay exFresh).state).state.env =
      "postgresql+psycopg2://u:p@h:5432/d" ∧
    lookup_env (setup_database exDataDir exCwd exPgPay
      (setup_database exDataDir exCwd exSqlitePay exFresh).state).state.env
      "PARSEDMARC_DB_PATH" = some "/app/x.db" ∧
    (setup_database exDataDir exCwd exPgPay
      (setup_database exDataDir exCwd exSqlitePay exFresh).state).state.status =
      { SetupStatus.fresh with database_configured := true } := by
  decide

/-- **C10.** The SQLite branch of the database step resolves the
user-supplied path and accepts it only when it lies within the resolved
data directory or the resolved working directory; a path resolving
outside both roots is rejected with an error before any configuration
change, and an accepted path is exactly the resolved one, inside one of
the roots. -/
theorem C10_db_path_validated (dataDir cwd : List String) (pay : DatabaseSetup)
    (st : SetupState) (hsql : pay.db_type = "sqlite")
    (hinc : st.status.is_complete = false) :
    (validate_db_path dataDir cwd pay.db_path = none →
      (setup_database dataDir cwd pay st).ok = false ∧
      (setup_database dataDir cwd pay st).state = st) ∧
    (∀ p, validate_db_path dataDir cwd pay.db_path = some p →
      p = resolvePath cwd pay.db_path ∧
      (path_is_relative_to p dataDir || path_is_relative_to p cwd) = true) := by
  constructor
  · intro hnone
    unfold setup_database require_setup_incomplete
    rw [if_neg (by simp [hinc]), if_pos hsql, hnone]
    exact ⟨rfl, rfl⟩
  · intro p hp
    unfold validate_db_path at hp
    by_cases hc : (path_is_relative_to (resolvePath cwd pay.db_path) dataDir ||
        path_is_relative_to (resolvePath cwd pay.db_path) cwd) = true
    · rw [if_pos hc] at hp
      obtain rfl : resolvePath cwd pay.db_path = p := by
        simpa using hp
      exact ⟨rfl, hc⟩
    · rw [if_neg hc] at hp
      exact absurd hp (by simp)

set_option maxRecDepth 400000 in
/-- Witness for C10: the escaping path `/etc/evil.db` is rejected with
no state change, and an in-tree path is accepted as its resolution. -/
theorem C10_db_path_validated_witness :
    ((setup_database exDataDir exCwd exEvilDbPay exFresh).ok = false ∧
      (setup_database exDataDir exCwd exEvilDbPay exFresh).state = exFresh) ∧
    (["app", "x.db"] = resolvePath exCwd exSqlitePay.db_path ∧
      (path_is_relative_to ["app", "x.db"] exDataDir ||
        path_is_relative_to ["app", "x.db"] exCwd) = true) := by
  refine ⟨?_, ?_⟩
  · exact (C10_db_path_validated exDataDir exCwd exEvilDbPay exFresh rfl rfl).1 (by decide)
  · exact (C10_db_path_validated exDataDir exCwd exSqlitePay exFresh rfl rfl).2
      ["app", "x.db"] (by decide)

end Setup

namespace Cert

/-- **C7 is false as stated**: on a filesystem whose highest-priority
pair (Let's Encrypt) is expired, `get_active_certificate` still returns
it as the active certificate; expiry is only reported inside the
returned info. -/
theorem C7_counterexample :
    get_active_certificate exExpiredFS =
      some {
        info := .ok exExpiredInfo, type := "letsencrypt",
        certificate := .letsencryptFullchain, private_key := .letsencryptKey } ∧
    exExpiredInfo.is_expired = true := by
  exact ⟨rfl, rfl⟩

/-- **C7 (amended).** `get_active_certificate` resolves purely by file
existence in priority order (Let's Encrypt > custom > self-signed): the
selected pair is returned as active regardless of its validity or
expiry (which are only reported via the returned info), and `none` is
returned exactly when no tier's material exists. -/
theorem C7_get_active_amended (fs : CertFS) :
    (fs.letsencryptFullchainExists = true →
      get_active_certificate fs =
        some {
          info := fs.infoAt .letsencryptCert, type := "letsencrypt",
          certificate := .letsencryptFullchain, private_key := .letsencryptKey }) ∧
    (fs.letsencryptFullchainExists = false → (fs.customCertExists && fs.customKeyExists) = true →
      get_active_certificate fs =
        some {
          info := fs.infoAt .customCert, type := "custom",
          certificate := .customCert, private_key := .customKey }) ∧
    (fs.letsencryptFullchainExists = false → (fs.customCertExists && fs.customKeyExists) = false →
      fs.selfSignedCertExists = true →
      get_active_certificate fs =
        some {
          info := fs.infoAt .selfSignedCert, type := "self-signed",
          certificate := .selfSignedCert, private_key := .selfSignedKey }) ∧
    (get_active_certificate fs = none ↔
      fs.letsencryptFullchainExists = false ∧
      (fs.customCertExists && fs.customKeyExists) = false ∧
      fs.selfSignedCertExists = false) := by
  refine ⟨?_, ?_, ?_, ?_⟩
  · intro h1
    unfold get_active_certificate
    rw [if_pos h1]
    rfl
  · intro h1 h2
    unfold get_active_certificate
    rw [if_neg (by simp [h1]), if_pos h2]
    rfl
  · intro h1 h2 h3
    unfold get_active_certificate
    rw [if_neg (by simp [h1]), if_neg (by simp [h2]), if_pos h3]
    rfl
  · unfold get_active_certificate
    constructor
    · intro h
      by_cases h1 : fs.letsencryptFullchainExists = true
      · rw [if_pos h1] at h
        exact absurd h (by simp)
      · rw [if_neg h1] at h
        by_cases h2 : (fs.customCertExists && fs.customKeyExists) = true
        · rw [if_pos h2] at h
          exact absurd h (by simp)
        · rw [if_neg h2] at h
          by_cases h3 : fs.selfSignedCertExists = true
          · rw [if_pos h3] at h
            exact absurd h (by simp)
          · exact ⟨by simpa using h1, by simpa using h2, by simpa using h3⟩
    · rintro ⟨h1, h2, h3⟩
      rw [if_neg (by simp [h1]), if_neg (by simp [h2]), if_neg (by simp [h3])]

/-- Witness for the amended C7 at the concrete expired filesystem. -/
theorem C7_get_active_amended_witness :
    get_active_certificate exExpiredFS =
      some {
        info := exExpiredFS.infoAt .letsencryptCert, type := "letsencrypt",
        certificate := .letsencryptFullchain, private_key := .letsencryptKey } :=
  (C7_get_active_amended exExpiredFS).1 rfl

end Cert

namespace Mask

theorem dictGet_dictSet_self (d : Dict) (k : String) (v : Crypto.JValue) :
    dictGet (dictSet d k v) k = some v := by
  induction d with
  | nil => simp [dictSet, dictGet]
  | cons hd tl ih =>
    obtain ⟨k2, v2⟩ := hd
    by_cases h : k2 = k
    · simp [dictSet, dictGet, h]
    · simp [dictSet, dictGet, h, ih]

theorem dictGet_dictSet_ne (d : Dict) (k k2 : String) (v : Crypto.JValue)
    (h : k ≠ k2) : dictGet (dictSet d k v) k2 = dictGet d k2 := by
  induction d with
  | nil => simp [dictSet, dictGet, h]
  | cons hd tl ih =>
    obtain ⟨k3, v3⟩ := hd
    by_cases h1 : k3 = k
    · subst h1
      simp [dictSet, dictGet, h]
    · by_cases h2 : k3 = k2
      · subst h2
        simp [dictSet, dictGet, h1]
      · simp [dictSet, dictGet, h1, h2, ih]

theorem dictGet_maskIfTruthy_self (d : Dict) (k : String) :
    dictGet (maskIfTruthy d k) k =
      (dictGet d k).map (fun v => if truthy v then SENTINEL else v) := by
  unfold maskIfTruthy
  cases hg : dictGet d k with
  | none => simp [hg]
  | some v =>
    by_cases ht : truthy v = true
    · simp [ht, dictGet_dictSet_self]
    · simp [ht, hg]

theorem dictGet_maskIfTruthy_ne (d : Dict) (k k2 : String) (h : k ≠ k2) :
    dictGet (maskIfTruthy d k) k2 = dictGet d k2 := by
  unfold maskIfTruthy
  cases hg : dictGet d k with
  | none => rfl
  | some v =>
    by_cases ht : truthy v = true
    · simp [ht, dictGet_dictSet_ne d k k2 SENTINEL h]
    · simp [ht]

/-- **C8 is false as stated**: `_mask_sensitive_fields` does NOT mask
`client_secret` (it is not in its fixed key set), so a truthy
`client_secret` in output settings is echoed back in the clear; a falsy
`password` is left as-is rather than replaced by the sentinel; and the
IMAP serializer ADDS a `password` key set to null when the field is
absent, so not every other field passes through unmodified. -/
theorem C8_counterexample :
    mask_sensitive_fields exLeakSettings "webhook" = exLeakSettings ∧
    dictGet (mask_sensitive_fields exLeakSettings "webhook") "client_secret" =
      some (Crypto.JValue.str "super-secret-value") ∧
    mask_imap_settings [("host", Crypto.JValue.str "imap.example.test")] =
      [("host", Crypto.JValue.str "imap.example.test"),
       ("password", Crypto.JValue.null)] :=
  ⟨rfl, rfl, rfl⟩

/-- **C8 (amended).** `_mask_sensitive_fields` replaces exactly
`password`, `token`, `secret_access_key` and `api_key` by the sentinel
when present and truthy, leaves falsy values of those keys unchanged,
and passes every other key (including `client_secret`) through
unmodified; the msgraph serializer additionally masks a truthy
`client_secret`; the IMAP serializer unconditionally sets `password`
(sentinel if truthy, null otherwise); the gmail and maildir serializers
mask nothing. -/
theorem C8_masking_amended (s : Dict) (t k : String) :
    (k = "password" ∨ k = "token" ∨ k = "secret_access_key" ∨ k = "api_key" →
      dictGet (mask_sensitive_fields s t) k =
        (dictGet s k).map (fun v => if truthy v then SENTINEL else v)) ∧
    (k ≠ "password" → k ≠ "token" → k ≠ "secret_access_key" → k ≠ "api_key" →
      dictGet (mask_sensitive_fields s t) k = dictGet s k) ∧
    (getTruthy s "client_secret" = true →
      dictGet (mask_msgraph_settings s) "client_secret" = some SENTINEL) ∧
    dictGet (mask_imap_settings s) "password" =
      some (if getTruthy s "password" then SENTINEL else Crypto.JValue.null) ∧
    mask_gmail_settings s = s ∧ mask_maildir_settings s = s := by
  refine ⟨?_, ?_, ?_, ?_, rfl, rfl⟩
  · intro hk
    unfold mask_sensitive_fields
    rcases hk with h | h | h | h
    · subst h
      rw [dictGet_maskIfTruthy_ne _ "api_key" "password" (by decide),
        dictGet_maskIfTruthy_ne _ "secret_access_key" "password" (by decide),
        dictGet_maskIfTruthy_ne _ "token" "password" (by decide),
        dictGet_maskIfTruthy_self]
    · subst h
      rw [dictGet_maskIfTruthy_ne _ "api_key" "token" (by decide),
        dictGet_maskIfTruthy_ne _ "secret_access_key" "token" (by decide),
        dictGet_maskIfTruthy_self,
        dictGet_maskIfTruthy_ne _ "password" "token" (by decide)]
    · subst h
      rw [dictGet_maskIfTruthy_ne _ "api_key" "secret_access_key" (by decide),
        dictGet_maskIfTruthy_self,
        dictGet_maskIfTruthy_ne _ "token" "secret_access_key" (by decide),
        dictGet_maskIfTruthy_ne _ "password" "secret_access_key" (by decide)]
    · subst h
      rw [dictGet_maskIfTruthy_self,
        dictGet_maskIfTruthy_ne _ "secret_access_key" "api_key" (by decide),
        dictGet_maskIfTruthy_ne _ "token" "api_key" (by decide),
        dictGet_maskIfTruthy_ne _ "password" "api_key" (by decide)]
  · intro h1 h2 h3 h4
    unfold mask_sensitive_fields
    rw [dictGet_maskIfTruthy_ne _ "api_key" k (Ne.symm h4),
      dictGet_maskIfTruthy_ne _ "secret_access_key" k (Ne.symm h3),
      dictGet_maskIfTruthy_ne _ "token" k (Ne.symm h2),
      dictGet_maskIfTruthy_ne _ "password" k (Ne.symm h1)]
  · intro h
    unfold mask_msgraph_settings mask_msgraph_password
    rw [if_pos h]
    by_cases hp :
        getTruthy (dictSet s "client_secret" SENTINEL) "password" = true
    · rw [if_pos hp,
        dictGet_dictSet_ne _ "password" "client_secret" SENTINEL (by decide),
        dictGet_dictSet_self]
    · rw [if_neg hp, dictGet_dictSet_self]
  · unfold mask_imap_settings
    rw [dictGet_dictSet_self]

/-- Witness for the amended C8 at concrete settings: a truthy password
is masked, a non-sensitive field passes through, and the msgraph
serializer masks the client secret. -/
theorem C8_masking_amended_witness :
    dictGet (mask_sensitive_fields exMaskSettings "smtp") "password" =
      some SENTINEL ∧
    dictGet (mask_sensitive_fields exMaskSettings "smtp") "host" =
      some (Crypto.JValue.str "smtp.example.test") ∧
    dictGet (mask_msgraph_settings exMaskSettings) "client_secret" =
      some SENTINEL := by
  refine ⟨?_, ?_, ?_⟩
  · have h := (C8_masking_amended exMaskSettings "smtp" "password").1
      (Or.inl rfl)
    rw [h]; rfl
  · have h := (C8_masking_amended exMaskSettings "smtp" "host").2.1
      (by decide) (by decide) (by decide) (by decide)
    rw [h]; rfl
  · exact (C8_masking_amended exMaskSettings "smtp" "host").2.2.1 rfl

end Mask
